import Mathlib

/-!
Verification development for the timeline event-aggregation pipeline
(`backend/main.py` of the timeline_ai repository).

The Python source is shallowly embedded: rows and cells become Lean
structures, the regular-expression searches of the source become explicit
character-list scanners with the same leftmost-match semantics, Python
`datetime.strptime` (for the three formats used by the source) becomes an
explicit validating parser, and Python's stable ascending `sort` becomes a
stable insertion sort.  All definitions are executable.
-/

namespace TimelineAI

/-! ## Basic character and string utilities -/

/-- The single-quote character, written by code so string literals stay clean. -/
def sqC : Char := Char.ofNat 39

/-- The single-quote character as a one-character string. -/
def sq : String := String.mk [sqC]

/-- Opening brace character. -/
def lbr : Char := Char.ofNat 123

/-- Closing brace character. -/
def rbr : Char := Char.ofNat 125

/-- Double-quote character. -/
def dqC : Char := Char.ofNat 34

/-- ASCII whitespace, the fragment of Python's regex class for whitespace
that the embedding models. -/
def isWs (c : Char) : Bool :=
  c = ' ' || c = Char.ofNat 9 || c = Char.ofNat 10 || c = Char.ofNat 13 ||
  c = Char.ofNat 11 || c = Char.ofNat 12

/-- ASCII decimal digit test (models the regex class for digits). -/
def isDigitC (c : Char) : Bool := '0' ≤ c && c ≤ '9'

/-- Numeric value of a decimal digit character. -/
def digitVal (c : Char) : Nat := c.toNat - 48

/-- Value of a list of decimal digit characters, most significant first. -/
def digitsVal (cs : List Char) : Nat :=
  cs.foldl (fun acc c => acc * 10 + digitVal c) 0

/-- Does `needle` occur as a contiguous sublist of `hay`?  Models the Python
substring operator on strings. -/
def subList : List Char → List Char → Bool
  | needle, hay =>
    match hay with
    | [] => needle.isEmpty
    | _ :: tl => needle.isPrefixOf hay || subList needle tl

/-- Python substring containment: the second string occurs inside the first. -/
def pyContains (hay needle : String) : Bool := subList needle.data hay.data

/-- If `lit` is a prefix of `cs`, return the rest of `cs` after it. -/
def matchLit (lit cs : List Char) : Option (List Char) :=
  match lit, cs with
  | [], rest => some rest
  | _ :: _, [] => none
  | l :: ls, c :: rest => if c = l then matchLit ls rest else none

/-- Take the maximal leading run of characters satisfying `p`, returning the
run and the rest. -/
def takeRun (p : Char → Bool) : List Char → List Char × List Char
  | [] => ([], [])
  | c :: rest =>
    if p c then
      let (run, rem) := takeRun p rest
      (c :: run, rem)
    else ([], c :: rest)

/-- Strip leading and trailing whitespace, modelling Python's `str.strip()`. -/
def pyStrip (s : String) : String :=
  String.mk ((s.data.dropWhile isWs).reverse.dropWhile isWs).reverse

/-- Replace every (leftmost, non-overlapping) occurrence of `pat` by `rep`,
modelling Python's `str.replace`.  `fuel` bounds the recursion; it is always
called with the length of the scanned list. -/
def replaceRun (pat rep : List Char) : Nat → List Char → List Char
  | _, [] => []
  | 0, cs => cs
  | fuel + 1, c :: rest =>
    if pat.isEmpty then c :: rest
    else
      match matchLit pat (c :: rest) with
      | some rem => rep ++ replaceRun pat rep fuel rem
      | none => c :: replaceRun pat rep fuel rest

/-- Python `str.replace` on strings. -/
def pyReplace (s pat rep : String) : String :=
  String.mk (replaceRun pat.data rep.data s.data.length s.data)

/-- Strict lexicographic comparison of character lists by code point; this is
Python's string `<`. -/
def strLtL : List Char → List Char → Bool
  | [], [] => false
  | [], _ :: _ => true
  | _ :: _, [] => false
  | a :: as, b :: bs =>
    if a < b then true else if b < a then false else strLtL as bs

/-- Lexicographic `≤` on character lists; this is the ordering Python's
ascending sort uses on string keys. -/
def strLeL : List Char → List Char → Bool
  | [], _ => true
  | _ :: _, [] => false
  | a :: as, b :: bs =>
    if a < b then true else if b < a then false else strLeL as bs

/-- Python string `<` lifted to `String`. -/
def strLt (a b : String) : Bool := strLtL a.data b.data

/-- Python string `≤` lifted to `String`. -/
def strLe (a b : String) : Bool := strLeL a.data b.data

/-- Insert `x` into a list after every element `y` with `le y x`; the helper
of the stable ascending sort. -/
def insertSorted (le : α → α → Bool) (x : α) : List α → List α
  | [] => [x]
  | y :: ys => if le y x then y :: insertSorted le x ys else x :: y :: ys

/-- Stable ascending sort (insertion sort).  Python's `list.sort`/`sorted`
is exactly the stable ascending sort for the total preorder `le`, so the
two agree on every input. -/
def sortStable (le : α → α → Bool) (l : List α) : List α :=
  l.foldl (fun acc x => insertSorted le x acc) []

/-! ## Timestamps

`_parse_timestamp` / `parse_time` in the source call `datetime.strptime`
with the formats `%Y-%m-%d %H:%M:%S`, `%Y/%m/%d %H:%M:%S` and `%H:%M:%S`.
CPython compiles these to regular expressions in which `%Y` is exactly four
digits, `%m` is `1[0-2]|0[1-9]|[1-9]`, `%d` is `3[01]|[12]\d|0[1-9]|[1-9]`,
`%H` is `2[0-3]|[0-1]\d|\d`, `%M` is `[0-5]\d|\d`, `%S` is
`6[0-1]|[0-5]\d|\d`, and a literal space matches a nonempty whitespace run;
the whole string must be consumed, and the `datetime` constructor then
rejects a day beyond the month's length, a second above 59, or a year 0.
The field parsers below list the regex alternatives in order and
`firstSome` restores the backtracking search. -/

structure DT where
  year : Nat
  month : Nat
  day : Nat
  hour : Nat
  minute : Nat
  second : Nat
deriving DecidableEq, Repr

/-- Try each candidate `(value, rest)` in order with continuation `k`,
modelling regex alternation with backtracking. -/
def firstSome (cands : List (Nat × List Char)) (k : Nat → List Char → Option α) :
    Option α :=
  match cands with
  | [] => none
  | (v, r) :: rest =>
    match k v r with
    | some x => some x
    | none => firstSome rest k

/-- Alternatives for `%m` (month), in regex order. -/
def altMonth (cs : List Char) : List (Nat × List Char) :=
  (match cs with
   | '1' :: c :: r => if '0' ≤ c && c ≤ '2' then [(10 + digitVal c, r)] else []
   | _ => []) ++
  (match cs with
   | '0' :: c :: r => if '1' ≤ c && c ≤ '9' then [(digitVal c, r)] else []
   | _ => []) ++
  (match cs with
   | c :: r => if '1' ≤ c && c ≤ '9' then [(digitVal c, r)] else []
   | _ => [])

/-- Alternatives for `%d` (day), in regex order. -/
def altDay (cs : List Char) : List (Nat × List Char) :=
  (match cs with
   | '3' :: c :: r => if c = '0' || c = '1' then [(30 + digitVal c, r)] else []
   | _ => []) ++
  (match cs with
   | c :: c2 :: r =>
    if (c = '1' || c = '2') && isDigitC c2 then
      [(digitVal c * 10 + digitVal c2, r)]
    else []
   | _ => []) ++
  (match cs with
   | '0' :: c :: r => if '1' ≤ c && c ≤ '9' then [(digitVal c, r)] else []
   | _ => []) ++
  (match cs with
   | c :: r => if '1' ≤ c && c ≤ '9' then [(digitVal c, r)] else []
   | _ => [])

/-- Alternatives for `%H` (hour), in regex order. -/
def altHour (cs : List Char) : List (Nat × List Char) :=
  (match cs with
   | '2' :: c :: r => if '0' ≤ c && c ≤ '3' then [(20 + digitVal c, r)] else []
   | _ => []) ++
  (match cs with
   | c :: c2 :: r =>
    if (c = '0' || c = '1') && isDigitC c2 then
      [(digitVal c * 10 + digitVal c2, r)]
    else []
   | _ => []) ++
  (match cs with
   | c :: r => if isDigitC c then [(digitVal c, r)] else []
   | _ => [])

/-- Alternatives for `%M` (minute), in regex order. -/
def altMinute (cs : List Char) : List (Nat × List Char) :=
  (match cs with
   | c :: c2 :: r =>
    if '0' ≤ c && c ≤ '5' && isDigitC c2 then
      [(digitVal c * 10 + digitVal c2, r)]
    else []
   | _ => []) ++
  (match cs with
   | c :: r => if isDigitC c then [(digitVal c, r)] else []
   | _ => [])

/-- Alternatives for `%S` (second), in regex order. -/
def altSecond (cs : List Char) : List (Nat × List Char) :=
  (match cs with
   | '6' :: c :: r => if c = '0' || c = '1' then [(60 + digitVal c, r)] else []
   | _ => []) ++
  (match cs with
   | c :: c2 :: r =>
    if '0' ≤ c && c ≤ '5' && isDigitC c2 then
      [(digitVal c * 10 + digitVal c2, r)]
    else []
   | _ => []) ++
  (match cs with
   | c :: r => if isDigitC c then [(digitVal c, r)] else []
   | _ => [])

/-- Consume a nonempty whitespace run (a literal space in a strptime format). -/
def skipWs1 (cs : List Char) : Option (List Char) :=
  match cs with
  | c :: rest => if isWs c then some ((c :: rest).dropWhile isWs) else none
  | [] => none

/-- Is `y` a (proleptic Gregorian) leap year, as Python's `datetime` uses? -/
def isLeap (y : Nat) : Bool := (y % 4 = 0 && y % 100 ≠ 0) || y % 400 = 0

/-- Length of month `m` of year `y`. -/
def daysInMonth (y m : Nat) : Nat :=
  if m = 2 then (if isLeap y then 29 else 28)
  else if m = 4 || m = 6 || m = 9 || m = 11 then 30
  else 31

/-- Validation the `datetime` constructor performs on top of the strptime
regex: year at least 1, day within the month, second at most 59. -/
def dtValid (t : DT) : Bool :=
  1 ≤ t.year && t.day ≤ daysInMonth t.year t.month && t.second ≤ 59

/-- Parse `HH:MM:SS` (with 1-2 digit fields per the strptime regex),
requiring the whole input to be consumed. -/
def parseHMS (cs : List Char) (k : Nat → Nat → Nat → Option DT) : Option DT :=
  firstSome (altHour cs) fun h r1 =>
    match r1 with
    | ':' :: r2 =>
      firstSome (altMinute r2) fun mi r3 =>
        match r3 with
        | ':' :: r4 =>
          firstSome (altSecond r4) fun s r5 =>
            if r5.isEmpty then k h mi s else none
        | _ => none
    | _ => none

/-- Parse `%Y<sep>%m<sep>%d %H:%M:%S` with the given date separator,
applying the `datetime` constructor validation. -/
def parseYMDHMS (sep : Char) (cs : List Char) : Option DT :=
  match cs with
  | d1 :: d2 :: d3 :: d4 :: rest =>
    if isDigitC d1 && isDigitC d2 && isDigitC d3 && isDigitC d4 then
      let y := digitsVal [d1, d2, d3, d4]
      match rest with
      | c1 :: r1 =>
        if c1 = sep then
          firstSome (altMonth r1) fun m r2 =>
            match r2 with
            | c2 :: r3 =>
              if c2 = sep then
                firstSome (altDay r3) fun d r4 =>
                  (skipWs1 r4).bind fun r5 =>
                    parseHMS r5 fun h mi s =>
                      let t : DT := ⟨y, m, d, h, mi, s⟩
                      if dtValid t then some t else none
              else none
            | [] => none
        else none
      | [] => none
    else none
  | _ => none

/-- Parse a bare `%H:%M:%S`; `strptime` fills in the date 1900-01-01. -/
def parseBareHMS (cs : List Char) : Option DT :=
  parseHMS cs fun h mi s =>
    let t : DT := ⟨1900, 1, 1, h, mi, s⟩
    if dtValid t then some t else none

/-- Embeds `_parse_timestamp` / the inner `parse_time` of `aggregate_traces`: a
falsy (empty) string yields no timestamp, otherwise the three formats are
tried in order. -/
def parseTimestamp (s : String) : Option DT :=
  if s = "" then none
  else
    match parseYMDHMS '-' s.data with
    | some t => some t
    | none =>
      match parseYMDHMS '/' s.data with
      | some t => some t
      | none => parseBareHMS s.data

/-- Days from 1970-01-01 of a proleptic Gregorian date (the ordinal
arithmetic `datetime` subtraction performs), for years at least 1. -/
def daysFromCivil (y m d : Nat) : Int :=
  let yy := if m ≤ 2 then y - 1 else y
  let era := yy / 400
  let yoe := yy % 400
  let mp := (m + 9) % 12
  let doy := (153 * mp + 2) / 5 + d - 1
  let doe := yoe * 365 + yoe / 4 - yoe / 100 + doy
  (era : Int) * 146097 + (doe : Int) - 719468

/-- Absolute time of a parsed timestamp in seconds; differences of this
quantity are exactly Python's `(a - b).total_seconds()`. -/
def dtSecs (t : DT) : Int :=
  daysFromCivil t.year t.month t.day * 86400 +
    (t.hour * 3600 + t.minute * 60 + t.second : Nat)

/-! ## Regex-modelled scanners

Each Python `re.search`/`re.findall` of the source becomes a scanner that
tries to match at each position from the left, exactly the leftmost-match
semantics of `re`. -/

/-- Match the pattern for a trace id at the start of `cs`: the literal
`Trace`, an ASCII or full-width colon, optional whitespace, then one or
more digits (returned). -/
def matchTraceAt (cs : List Char) : Option String :=
  match matchLit "Trace".data cs with
  | none => none
  | some r1 =>
    match r1 with
    | c :: r2 =>
      if c = ':' || c = '：' then
        let r3 := r2.dropWhile isWs
        let (ds, _) := takeRun isDigitC r3
        if ds.isEmpty then none else some (String.mk ds)
      else none
    | [] => none

/-- Leftmost search for the trace-id pattern. -/
def scanTraceId : List Char → Option String
  | [] => none
  | c :: rest =>
    match matchTraceAt (c :: rest) with
    | some ds => some ds
    | none => scanTraceId rest

/-- Embeds `extract_id` of `aggregate_traces`: a falsy value (absent or empty)
yields no id; otherwise the first `Trace[:：]\s*(\d+)` match. -/
def extract_id (text : Option String) : Option String :=
  match text with
  | none => none
  | some s => if s = "" then none else scanTraceId s.data

/-- Match a bracketed run `[...]` (one or more non-`]` characters) at the
start of `cs`, returning it with its brackets. -/
def matchBracketAt (cs : List Char) : Option String :=
  match cs with
  | '[' :: rest =>
    let (run, rem) := takeRun (fun c => c ≠ ']') rest
    if run.isEmpty then none
    else
      match rem with
      | ']' :: _ => some (String.mk ('[' :: run ++ [']']))
      | _ => none
  | _ => none

/-- Leftmost search for a bracketed run. -/
def scanBracket : List Char → Option String
  | [] => none
  | c :: rest =>
    match matchBracketAt (c :: rest) with
    | some s => some s
    | none => scanBracket rest

/-- Embeds `extract_content_timestamp` of `aggregate_traces`: the first `[...]`
substring of the content, or the empty string. -/
def extract_content_timestamp (text : Option String) : String :=
  match text with
  | none => ""
  | some s => if s = "" then "" else (scanBracket s.data).getD ""

/-- Exactly `n` digits at the start of `cs`, returning them and the rest. -/
def nDigits : Nat → List Char → Option (List Char × List Char)
  | 0, cs => some ([], cs)
  | _ + 1, [] => none
  | n + 1, c :: rest =>
    if isDigitC c then
      (nDigits n rest).map fun (ds, rem) => (c :: ds, rem)
    else none

/-- Match `\d{4}-\d{2}-\d{2}\s+\d{2}:\d{2}:\d{2}` at the start of `cs`,
returning the matched characters and the rest. -/
def matchTsCore (cs : List Char) : Option (List Char × List Char) :=
  (nDigits 4 cs).bind fun (y, r1) =>
  (matchLit ['-'] r1).bind fun r2 =>
  (nDigits 2 r2).bind fun (mo, r3) =>
  (matchLit ['-'] r3).bind fun r4 =>
  (nDigits 2 r4).bind fun (d, r5) =>
  match r5 with
  | c :: _ =>
    if isWs c then
      let ws := r5.takeWhile isWs
      let r6 := r5.dropWhile isWs
      (nDigits 2 r6).bind fun (h, r7) =>
      (matchLit [':'] r7).bind fun r8 =>
      (nDigits 2 r8).bind fun (mi, r9) =>
      (matchLit [':'] r9).bind fun r10 =>
      (nDigits 2 r10).map fun (s, r11) =>
        (y ++ '-' :: mo ++ '-' :: d ++ ws ++ h ++ ':' :: mi ++ ':' :: s, r11)
    else none
  | [] => none

/-- Leftmost search for the content timestamp pattern
`(\d{4}-\d{2}-\d{2}\s+\d{2}:\d{2}:\d{2})`, returning the matched substring. -/
def scanTsMatch : List Char → Option String
  | [] => none
  | c :: rest =>
    match matchTsCore (c :: rest) with
    | some (m, _) => some (String.mk m)
    | none => scanTsMatch rest

/-- Match the D240 inner-time pattern
`\[(\d{4}-\d{2}-\d{2}\s+\d{2}:\d{2}:\d{2})\s+(\d+)ms\]` at the start of
`cs`, returning (group 1, group 2 as a number, rest after the match). -/
def matchInnerAt (cs : List Char) : Option (String × Nat × List Char) :=
  match cs with
  | '[' :: r0 =>
    (matchTsCore r0).bind fun (ts, r1) =>
    (skipWs1 r1).bind fun r2 =>
      let (ds, r3) := takeRun isDigitC r2
      if ds.isEmpty then none
      else
        (matchLit "ms]".data r3).map fun r4 => (String.mk ts, digitsVal ds, r4)
  | _ => none

/-- Leftmost search for the D240 inner-time pattern. -/
def scanInner : List Char → Option (String × Nat × List Char)
  | [] => none
  | c :: rest =>
    match matchInnerAt (c :: rest) with
    | some x => some x
    | none => scanInner rest

/-- Match a fault entry `\['[^']+'\]` at the start of `cs`, returning the
entry (with its wrapper) and the rest after it. -/
def matchFaultAt (cs : List Char) : Option (String × List Char) :=
  match cs with
  | '[' :: c1 :: rest =>
    if c1 = sqC then
      let (run, rem) := takeRun (fun c => c ≠ sqC) rest
      if run.isEmpty then none
      else
        match rem with
        | c2 :: ']' :: r2 =>
          if c2 = sqC then
            some (String.mk ('[' :: sqC :: run ++ [sqC, ']']), r2)
          else none
        | _ => none
    else none
  | _ => none

/-- Embeds `re.findall` of the fault-entry pattern: all leftmost non-overlapping
matches.  `fuel` bounds the scan; it is called with the list length, which
dominates the number of scanning steps because every step consumes at
least one character. -/
def scanFaults : Nat → List Char → List String
  | 0, _ => []
  | _, [] => []
  | fuel + 1, c :: rest =>
    match matchFaultAt (c :: rest) with
    | some (e, rem) => e :: scanFaults fuel rem
    | none => scanFaults fuel rest

/-- All fault entries of a fault part. -/
def faultEntries (s : String) : List String := scanFaults s.data.length s.data

/-- The sort key of a fault entry per the source: search
`^\s*'([A-Za-z0-9]+)` in the text between the wrappers (`f_str[2:-2]`) and
fall back to that text when the pattern does not match. -/
def entryKey (fstr : String) : String :=
  let inner := String.mk ((fstr.data.drop 2).take (fstr.data.length - 4))
  let r1 := inner.data.dropWhile isWs
  match r1 with
  | c :: r2 =>
    if c = sqC then
      let (run, _) := takeRun Char.isAlphanum r2
      if run.isEmpty then inner else String.mk run
    else inner
  | [] => inner

/-! ## The row model

A row is the producer's JSON shape: a stable id plus a mapping from column
name to cell, kept as an insertion-ordered association list exactly as a
Python dict iterates. -/

structure Cell where
  value : Option String
  bgColor : Option String := none
  comment : Option String := none
deriving DecidableEq, Repr

structure Row where
  id : Nat
  cells : List (String × Cell)
deriving DecidableEq, Repr

/-- A default row for positional access that is never out of range. -/
def dummyRow : Row := ⟨0, []⟩

/-- Python `row["cells"].get(col, {})` as an optional cell. -/
def lookupCell (row : Row) (col : String) : Option Cell :=
  (row.cells.find? (fun p => p.1 = col)).map (·.2)

/-- First header containing the given substring, or none
(`next((h for h in headers if sub in h), None)`). -/
def findCol (headers : List String) (sub : String) : Option String :=
  headers.find? (fun h => pyContains h sub)

/-- Python `str()` of an optional scalar: `None` prints as `"None"`. -/
def pyStr : Option String → String
  | none => "None"
  | some s => s

/-- Embeds `cells.get(col, {}).get("value", dflt)`: a missing cell falls back to
the default, a present cell yields its (possibly null) value. -/
def cellValueD (row : Row) (col : String) (dflt : Option String) : Option String :=
  match lookupCell row col with
  | none => dflt
  | some c => c.value

/-- Embeds `str(row["cells"].get(col, {}).get("value", ""))`, the content/type
access of `process_d240_faults`. -/
def cellValueStr (row : Row) (col : String) : String :=
  match lookupCell row col with
  | none => ""
  | some c => pyStr c.value

/-- The device key of a row
(`str(row["cells"].get(device_col, {}).get("value", "UNKNOWN"))` when a
device column exists, else `"UNKNOWN"`). -/
def deviceKey (row : Row) (dcol : Option String) : String :=
  match dcol with
  | none => "UNKNOWN"
  | some dc =>
    match lookupCell row dc with
    | none => "UNKNOWN"
    | some c => pyStr c.value

/-- The device column: the second header when there are at least two
(`headers[1] if len(headers) > 1 else None`). -/
def deviceCol (headers : List String) : Option String :=
  if headers.length > 1 then some (headers.getD 1 "") else none

/-- Append a value to its key's group, creating the group at the end on
first sight; this is Python dict insertion-order grouping. -/
def insertGroup [DecidableEq κ] : List (κ × List α) → κ → α → List (κ × List α)
  | [], k, i => [(k, [i])]
  | (k0, l) :: rest, k, i =>
    if k0 = k then (k0, l ++ [i]) :: rest else (k0, l) :: insertGroup rest k i

/-- Partition row indices by device key, preserving first-appearance order
of keys and index order within a key. -/
def deviceGroups (rows : List Row) (dcol : Option String) : List (String × List Nat) :=
  rows.enum.foldl (fun acc p => insertGroup acc (deviceKey p.2 dcol) p.1) []

/-! ## `aggregate_traces` -/

/-- Expected member ids of the control trace family (center 53552). -/
def control_target : List String :=
  ["53552", "53553", "53554", "53555", "53556", "53557", "53558"]

/-- Expected member ids of the management trace family (center 53504). -/
def mgmt_target : List String :=
  ["53504", "53505", "53506", "53507", "53508"]

/-- The parsed time of the row at absolute index `idx`, in seconds; the
pre-parsed `row_times` map of the source. -/
def rowTimeS (rows : List Row) (tcol : Option String) (idx : Nat) : Option Int :=
  match tcol with
  | none => none
  | some tc =>
    (cellValueD (rows.getD idx dummyRow) tc none).bind fun s =>
      (parseTimestamp s).map dtSecs

/-- The content value of the row at absolute index `idx`
(`row["cells"].get(content_col, {}).get("value", "")`). -/
def contentOpt (rows : List Row) (ccol : String) (idx : Nat) : Option String :=
  cellValueD (rows.getD idx dummyRow) ccol (some "")

/-- Candidate companion indices for a center at group position `i`.  With a
parsed center time the source scans group positions `max(0, i-50)` up to
(excluding) `min(len, i+50)` and keeps rows whose parsed time lies within
`[-10, 20]` seconds of the center; without one it scans positions
`max(0, i-20)` up to (excluding) `min(len, i+21)` unconditionally. -/
def candidateIdxs (dIdx : List Nat) (i : Nat) (centerT : Option Int)
    (rowT : Nat → Option Int) : List Nat :=
  match centerT with
  | some ct =>
    dIdx.enum.filterMap fun p =>
      if i - 50 ≤ p.1 ∧ p.1 < i + 50 then
        match rowT p.2 with
        | some t => if -10 ≤ t - ct ∧ t - ct ≤ 20 then some p.2 else none
        | none => none
      else none
  | none =>
    dIdx.enum.filterMap fun p =>
      if i - 20 ≤ p.1 ∧ p.1 < i + 21 then some p.2 else none

/-- Candidates of the center at group position `i`, absolute index `idx`. -/
def centerCandidates (rows : List Row) (tcol : Option String) (dIdx : List Nat)
    (i idx : Nat) : List Nat :=
  candidateIdxs dIdx i (rowTimeS rows tcol idx) (rowTimeS rows tcol)

/-- Candidates whose extracted id belongs to the family target, paired with
that id (the loop filling `found_ids` and `cluster_indices`). -/
def centerHits (rows : List Row) (ccol : String) (tcol : Option String)
    (dIdx : List Nat) (i idx : Nat) (tgt : List String) : List (Nat × String) :=
  (centerCandidates rows tcol dIdx i idx).filterMap fun c =>
    match extract_id (contentOpt rows ccol c) with
    | some cid => if cid ∈ tgt then some (c, cid) else none
    | none => none

/-- The ids found among candidates. -/
def centerFound (rows : List Row) (ccol : String) (tcol : Option String)
    (dIdx : List Nat) (i idx : Nat) (tgt : List String) : List String :=
  (centerHits rows ccol tcol dIdx i idx tgt).map (·.2)

/-- The cluster indices collected for the center. -/
def centerCluster (rows : List Row) (ccol : String) (tcol : Option String)
    (dIdx : List Nat) (i idx : Nat) (tgt : List String) : List Nat :=
  (centerHits rows ccol tcol dIdx i idx tgt).map (·.1)

/-- Embeds `sorted(list(target - found_ids))`: the family targets are listed in
ascending string order, so filtering preserves the sorted ascending order
of the set difference. -/
def centerMissing (rows : List Row) (ccol : String) (tcol : Option String)
    (dIdx : List Nat) (i idx : Nat) (tgt : List String) : List String :=
  tgt.filter fun m => !(centerFound rows ccol tcol dIdx i idx tgt).contains m

/-- The summary string written into the center's content cell. -/
def traceSummary (pfx ts : String) (missing : List String) : String :=
  if missing.isEmpty then pfx ++ "Trace" ++ ts ++ "（完整）"
  else pfx ++ "Trace" ++ ts ++ " 缺少" ++ String.intercalate "、" missing ++ "数据"

/-- If the row at `(i, idx)` is a trace center, its summary and cluster. -/
def centerResult (rows : List Row) (ccol : String) (tcol : Option String)
    (dIdx : List Nat) (i idx : Nat) : Option (String × List Nat) :=
  let tid := extract_id (contentOpt rows ccol idx)
  if tid = some "53552" then
    some (traceSummary "控制" (extract_content_timestamp (contentOpt rows ccol idx))
            (centerMissing rows ccol tcol dIdx i idx control_target),
          centerCluster rows ccol tcol dIdx i idx control_target)
  else if tid = some "53504" then
    some (traceSummary "管理" (extract_content_timestamp (contentOpt rows ccol idx))
            (centerMissing rows ccol tcol dIdx i idx mgmt_target),
          centerCluster rows ccol tcol dIdx i idx mgmt_target)
  else none

/-- Replacements contributed by one device group (`replacements[idx] = summary`). -/
def groupRepls (rows : List Row) (ccol : String) (tcol : Option String)
    (dIdx : List Nat) : List (Nat × String) :=
  dIdx.enum.filterMap fun p =>
    (centerResult rows ccol tcol dIdx p.1 p.2).map fun r => (p.2, r.1)

/-- Skip indices contributed by one device group: every cluster index other
than the center itself. -/
def groupSkips (rows : List Row) (ccol : String) (tcol : Option String)
    (dIdx : List Nat) : List Nat :=
  dIdx.enum.flatMap fun p =>
    match centerResult rows ccol tcol dIdx p.1 p.2 with
    | some r => r.2.filter fun c => c ≠ p.2
    | none => []

/-- All content replacements of `aggregate_traces`. -/
def aggregateRepls (rows : List Row) (ccol : String) (tcol dcol : Option String) :
    List (Nat × String) :=
  (deviceGroups rows dcol).flatMap fun g => groupRepls rows ccol tcol g.2

/-- All skip indices of `aggregate_traces`. -/
def aggregateSkips (rows : List Row) (ccol : String) (tcol dcol : Option String) :
    List Nat :=
  (deviceGroups rows dcol).flatMap fun g => groupSkips rows ccol tcol g.2

/-- Copy-on-write content replacement of the source's reconstruction pass. -/
def setContent (row : Row) (ccol : String) (v : String) : Row :=
  { row with
    cells := row.cells.map fun p =>
      if p.1 = ccol then (p.1, { p.2 with value := some v }) else p }

/-- The reconstruction pass: drop skipped indices, then apply replacements. -/
def rebuildRows (rows : List Row) (ccol : String) (repls : List (Nat × String))
    (skips : List Nat) : List Row :=
  rows.enum.filterMap fun p =>
    if p.1 ∈ skips then none
    else
      match (repls.find? fun q => q.1 = p.1).map (·.2) with
      | some s => some (setContent p.2 ccol s)
      | none => some p.2

/-- Embeds `aggregate_traces(rows, headers)` of the source. -/
def aggregate_traces (rows : List Row) (headers : List String) : List Row :=
  if rows.isEmpty then rows
  else
    match findCol headers "内容" with
    | none => rows
    | some ccol =>
      let tcol := findCol headers "时间"
      let dcol := deviceCol headers
      rebuildRows rows ccol (aggregateRepls rows ccol tcol dcol)
        (aggregateSkips rows ccol tcol dcol)

/-! ## `process_d240_faults` -/

/-- The D240 marker string. -/
def d240Marker : String := "故障代码D240"

/-- The device-time key of a row
(`str(t_val) if t_val else "UNKNOWN"` on `.get("value")`). -/
def timeKey (row : Row) (tcol : String) : String :=
  match cellValueD row tcol none with
  | some s => if s = "" then "UNKNOWN" else s
  | none => "UNKNOWN"

/-- Sub-group a device group's indices by device-time key, in insertion
order. -/
def timeGroups (rows : List Row) (tcol : String) (dIdx : List Nat) :
    List (String × List Nat) :=
  dIdx.foldl (fun acc idx => insertGroup acc (timeKey (rows.getD idx dummyRow) tcol) idx) []

/-- Is the row at `idx` a D240 row (marker in its type or content value)? -/
def isD240 (rows : List Row) (ccol : String) (tycol : Option String) (idx : Nat) :
    Bool :=
  let tyv := match tycol with
    | some tc => cellValueStr (rows.getD idx dummyRow) tc
    | none => ""
  let cv := cellValueStr (rows.getD idx dummyRow) ccol
  pyContains tyv d240Marker || pyContains cv d240Marker

structure D240Item where
  idx : Nat
  innerTime : String
  innerMs : Nat
  faultPart : String
deriving DecidableEq, Repr

/-- Parse a D240 row: inner timestamp, milliseconds and the stripped fault
part, with the source's fallback for rows without the pattern. -/
def parseD240 (rows : List Row) (ccol : String) (idx : Nat) : D240Item :=
  let cv := cellValueStr (rows.getD idx dummyRow) ccol
  match scanInner cv.data with
  | some (t, ms, rest) => ⟨idx, t, ms, pyStrip (String.mk rest)⟩
  | none => ⟨idx, "0000-00-00 00:00:00", 0, cv⟩

/-- Group parsed items by `(inner_time, inner_ms)` in insertion order. -/
def mergeGroupsOf (items : List D240Item) : List ((String × Nat) × List D240Item) :=
  items.foldl (fun acc it => insertGroup acc (it.innerTime, it.innerMs) it) []

/-- Every fault entry of a merge group with its sort key; a fault part
without bracketed entries contributes itself with key `"0"`. -/
def groupFaults (items : List D240Item) : List (String × String) :=
  items.flatMap fun it =>
    match faultEntries it.faultPart with
    | [] => [(it.faultPart, "0")]
    | es => es.map fun e => (e, entryKey e)

/-- The group's entries sorted stably ascending by key, as Python's
`list.sort(key=...)` produces. -/
def sortedFaults (items : List D240Item) : List (String × String) :=
  sortStable (fun a b => strLe a.2 b.2) (groupFaults items)

/-- The rebuilt content of one merge group. -/
def mergedContent (key : String × Nat) (items : List D240Item) : String :=
  "[" ++ key.1 ++ " " ++ toString key.2 ++ "ms] " ++
    String.join ((sortedFaults items).map (·.1))

/-- Python tuple ordering `(str, int) ≤ (str, int)` as a sort predicate. -/
def keyLe (a b : String × Nat) : Bool :=
  if strLt a.1 b.1 then true else if strLt b.1 a.1 then false else a.2 ≤ b.2

/-- Updates of one `(device, device-time)` bucket: modified rows for the
first merge groups (in sorted key order) and removals for surplus D240
slots. -/
def bucketUpdates (rows : List Row) (ccol : String) (tycol : Option String)
    (indices : List Nat) : List (Nat × Row) × List Nat :=
  let d240 := indices.filter (isD240 rows ccol tycol)
  if d240.isEmpty then ([], [])
  else
    let parsed := d240.map (parseD240 rows ccol)
    let mg := mergeGroupsOf parsed
    let sortedKeys := sortStable keyLe (mg.map (·.1))
    let finals := sortedKeys.map fun k =>
      mergedContent k ((((mg.find? fun g => g.1 = k).map (·.2)).getD []))
    (d240.enum.filterMap fun p =>
       if p.1 < finals.length then
         some (p.2, setContent (rows.getD p.2 dummyRow) ccol (finals.getD p.1 ""))
       else none,
     d240.enum.filterMap fun p =>
       if p.1 < finals.length then none else some p.2)

/-- All row modifications of `process_d240_faults`. -/
def d240Mods (rows : List Row) (ccol tcol : String) (tycol dcol : Option String) :
    List (Nat × Row) :=
  (deviceGroups rows dcol).flatMap fun g =>
    (timeGroups rows tcol g.2).flatMap fun tg =>
      (bucketUpdates rows ccol tycol tg.2).1

/-- All row removals of `process_d240_faults`. -/
def d240Removals (rows : List Row) (ccol tcol : String) (tycol dcol : Option String) :
    List Nat :=
  (deviceGroups rows dcol).flatMap fun g =>
    (timeGroups rows tcol g.2).flatMap fun tg =>
      (bucketUpdates rows ccol tycol tg.2).2

/-- The reconstruction pass of `process_d240_faults`. -/
def rebuildRowsD (rows : List Row) (mods : List (Nat × Row)) (removals : List Nat) :
    List Row :=
  rows.enum.filterMap fun p =>
    if p.1 ∈ removals then none
    else
      match (mods.find? fun q => q.1 = p.1).map (·.2) with
      | some nr => some nr
      | none => some p.2

/-- Embeds `process_d240_faults(rows, headers)` of the source. -/
def process_d240_faults (rows : List Row) (headers : List String) : List Row :=
  if rows.isEmpty then rows
  else
    match findCol headers "内容", findCol headers "时间" with
    | some ccol, some tcol =>
      let tycol := findCol headers "类型"
      let dcol := deviceCol headers
      rebuildRowsD rows (d240Mods rows ccol tcol tycol dcol)
        (d240Removals rows ccol tcol tycol dcol)
    | _, _ => rows

/-! ## JSON values (model of the payloads `json.loads` yields)

The comment payloads the rule engine consumes are flat-to-moderately
nested JSON objects; the model covers objects, arrays, strings with the
common escapes, integer numbers, booleans and null. -/

inductive JVal where
  | jstr : String → JVal
  | jnum : Int → JVal
  | jbool : Bool → JVal
  | jnull : JVal
  | jobj : List (String × JVal) → JVal
  | jarr : List JVal → JVal

/-- Parse a JSON string body after its opening double quote, decoding the
common escapes; `fuel` bounds the recursion by the input length. -/
def parseJStrBody : Nat → List Char → Option (List Char × List Char)
  | 0, _ => none
  | _ + 1, [] => none
  | fuel + 1, c :: rest =>
    if c = dqC then some ([], rest)
    else if c = '\\' then
      match rest with
      | e :: r2 =>
        let dec : Option Char :=
          if e = dqC then some dqC
          else if e = '\\' then some '\\'
          else if e = '/' then some '/'
          else if e = 'n' then some (Char.ofNat 10)
          else if e = 't' then some (Char.ofNat 9)
          else if e = 'r' then some (Char.ofNat 13)
          else if e = 'b' then some (Char.ofNat 8)
          else if e = 'f' then some (Char.ofNat 12)
          else none
        match dec with
        | some d => (parseJStrBody fuel r2).map fun pr => (d :: pr.1, pr.2)
        | none => none
      | [] => none
    else (parseJStrBody fuel rest).map fun pr => (c :: pr.1, pr.2)

mutual

/-- Parse one JSON value; `fuel` bounds the recursion. -/
def parseJVal : Nat → List Char → Option (JVal × List Char)
  | 0, _ => none
  | fuel + 1, cs0 =>
    let cs := cs0.dropWhile isWs
    match cs with
    | [] => none
    | c :: rest =>
      if c = dqC then
        (parseJStrBody (rest.length + 1) rest).map fun pr =>
          (.jstr (String.mk pr.1), pr.2)
      else if c = lbr then parseJFields fuel rest
      else if c = '[' then parseJItems fuel rest
      else if c = '-' then
        let (ds, rem) := takeRun isDigitC rest
        if ds.isEmpty then none else some (.jnum (-(digitsVal ds : Int)), rem)
      else if isDigitC c then
        let (ds, rem) := takeRun isDigitC (c :: rest)
        some (.jnum (digitsVal ds : Int), rem)
      else
        match matchLit "true".data cs with
        | some r => some (.jbool true, r)
        | none =>
          match matchLit "false".data cs with
          | some r => some (.jbool false, r)
          | none =>
            match matchLit "null".data cs with
            | some r => some (.jnull, r)
            | none => none

/-- Parse the fields of a JSON object after its opening brace. -/
def parseJFields : Nat → List Char → Option (JVal × List Char)
  | 0, _ => none
  | fuel + 1, cs0 =>
    let cs := cs0.dropWhile isWs
    match cs with
    | c :: rest =>
      if c = rbr then some (.jobj [], rest)
      else if c = dqC then
        (parseJStrBody (rest.length + 1) rest).bind fun pr =>
          match pr.2.dropWhile isWs with
          | ':' :: r2 =>
            (parseJVal fuel r2).bind fun vr =>
              parseJMore fuel vr.2 [(String.mk pr.1, vr.1)]
          | _ => none
      else none
    | [] => none

/-- Parse `, "k": v` continuations or the closing brace of an object. -/
def parseJMore : Nat → List Char → List (String × JVal) →
    Option (JVal × List Char)
  | 0, _, _ => none
  | fuel + 1, cs0, acc =>
    let cs := cs0.dropWhile isWs
    match cs with
    | c :: rest =>
      if c = rbr then some (.jobj acc, rest)
      else if c = ',' then
        match rest.dropWhile isWs with
        | c2 :: r2 =>
          if c2 = dqC then
            (parseJStrBody (r2.length + 1) r2).bind fun pr =>
              match pr.2.dropWhile isWs with
              | ':' :: r3 =>
                (parseJVal fuel r3).bind fun vr =>
                  parseJMore fuel vr.2 (acc ++ [(String.mk pr.1, vr.1)])
              | _ => none
          else none
        | [] => none
      else none
    | [] => none

/-- Parse the items of a JSON array after its opening bracket. -/
def parseJItems : Nat → List Char → Option (JVal × List Char)
  | 0, _ => none
  | fuel + 1, cs0 =>
    let cs := cs0.dropWhile isWs
    match cs with
    | ']' :: rest => some (.jarr [], rest)
    | _ :: _ =>
      (parseJVal fuel cs).bind fun vr => parseJMoreItems fuel vr.2 [vr.1]
    | [] => none

/-- Parse `, v` continuations or the closing bracket of an array. -/
def parseJMoreItems : Nat → List Char → List JVal → Option (JVal × List Char)
  | 0, _, _ => none
  | fuel + 1, cs0, acc =>
    let cs := cs0.dropWhile isWs
    match cs with
    | ']' :: rest => some (.jarr acc, rest)
    | ',' :: rest =>
      (parseJVal fuel rest).bind fun vr => parseJMoreItems fuel vr.2 (acc ++ [vr.1])
    | _ => none

end

/-- Model of `json.loads` (on the modelled JSON subset): parse one value consuming
the whole string up to trailing whitespace. -/
def pyJsonLoads (s : String) : Option JVal :=
  match parseJVal (s.data.length + 1) s.data with
  | some (v, rest) => if (rest.dropWhile isWs).isEmpty then some v else none
  | none => none

mutual

/-- Python `str()` of a decoded JSON value, as an f-string renders it. -/
def pyShowJ : JVal → String
  | .jstr s => s
  | .jnum n => toString n
  | .jbool b => if b then "True" else "False"
  | .jnull => "None"
  | .jobj fs => String.mk lbr.toString.data ++ String.intercalate ", " (pyReprFields fs) ++ rbr.toString
  | .jarr xs => "[" ++ String.intercalate ", " (pyReprItems xs) ++ "]"

/-- Python `repr()` of a decoded JSON value (nested containers render
strings quoted). -/
def pyReprJ : JVal → String
  | .jstr s => sq ++ s ++ sq
  | v => pyShowJ v

/-- Rendered fields of a dict, Python style. -/
def pyReprFields : List (String × JVal) → List String
  | [] => []
  | (k, v) :: rest => (sq ++ k ++ sq ++ ": " ++ pyReprJ v) :: pyReprFields rest

/-- Rendered items of a list, Python style. -/
def pyReprItems : List JVal → List String
  | [] => []
  | v :: rest => pyReprJ v :: pyReprItems rest

end

/-- Last-wins key lookup, as a Python dict built with possibly duplicate
keys behaves. -/
def jsonGet (fs : List (String × JVal)) (k : String) : Option JVal :=
  (fs.reverse.find? fun p => p.1 = k).map (·.2)

/-- Key presence in the decoded object. -/
def jsonHasKey (fs : List (String × JVal)) (k : String) : Bool :=
  fs.any fun p => p.1 = k

/-- First index of a character in a list. -/
def findIdx (c : Char) : List Char → Option Nat
  | [] => none
  | c0 :: rest =>
    if c0 = c then some 0 else (findIdx c rest).map (· + 1)

/-- Embeds `_extract_json_from_comment`: the regex `(\{.*\})` with DOTALL matches
from the first opening brace through the last closing brace (when the
latter comes after the former); the match is parsed as JSON, with the
single-quote/True/False/None fixup retried on failure, and any failure
yields the empty mapping. -/
def extract_json_from_comment (comment : String) : List (String × JVal) :=
  if comment = "" then []
  else
    let cs := comment.data
    match findIdx lbr cs, findIdx rbr cs.reverse with
    | some i, some jr =>
      let j := cs.length - 1 - jr
      if i < j then
        let js := String.mk ((cs.drop i).take (j - i + 1))
        match pyJsonLoads js with
        | some (.jobj fs) => fs
        | some _ => []
        | none =>
          let fixed :=
            pyReplace (pyReplace (pyReplace (pyReplace js sq dqC.toString)
              "True" "true") "False" "false") "None" "null"
          match pyJsonLoads fixed with
          | some (.jobj fs) => fs
          | _ => []
      else []
    | _, _ => []

/-! ## Rule engine: attribute extraction and tagging -/

/-- The one transform the configuration carries
(`lambda x: int(x) - 1 if str(x).isdigit() else x`). -/
inductive TransformKind where
  | syncFloor

structure AttrRule where
  keys : List String
  valueMap : Option (List (String × String))
  transform : Option TransformKind

/-- Embeds `GLOBAL_ATTR_CONFIG` of the source, in dict insertion order. -/
def global_attr_config : List (String × List AttrRule) :=
  [("合同号", [⟨["产品合同号梯号", "Contract No.", "Device ID"], none, none⟩]),
   ("控制同步层", [⟨["控制同步层"], none, some .syncFloor⟩]),
   ("41DG信号",
    [⟨["41DG信号"], some [("闭合", "闭合"), ("断开", "断开")], none⟩,
     ⟨["门锁状态（41DG）"],
      some [("门锁断开(41DG_OFF)", "断开"), ("门锁闭合(41DG_ON)", "闭合"),
            ("闭合", "闭合")], none⟩])]

/-- Is the Python `str()` of this value all decimal digits and nonempty? -/
def pyIsDigitStr (s : String) : Bool := !s.data.isEmpty && s.data.all isDigitC

/-- Apply a transform, keeping the value on the guard's else branch. -/
def applyTransform : TransformKind → JVal → JVal
  | .syncFloor, v =>
    let s := pyShowJ v
    if pyIsDigitStr s then .jnum ((digitsVal s.data : Int) - 1) else v

/-- Lookup in a value-map table. -/
def vmLookup (vm : List (String × String)) (k : String) : Option String :=
  (vm.find? fun p => p.1 = k).map (·.2)

/-- Apply a value map: exact key match for strings, string-coerced match
otherwise, keeping the raw value when neither hits. -/
def applyValueMap (vm : List (String × String)) (v : JVal) : JVal :=
  match v with
  | .jstr s =>
    match vmLookup vm s with
    | some m => .jstr m
    | none => v
  | _ =>
    match vmLookup vm (pyShowJ v) with
    | some m => .jstr m
    | none => v

/-- Embeds `_get_value_from_cells`: the value of the first cell whose column name
contains the substring, stringified; else the empty string. -/
def getValueFromCells (row : Row) (sub : String) : String :=
  match row.cells.find? fun p => pyContains p.1 sub with
  | some p => pyStr p.2.value
  | none => ""

/-- Embeds `_get_comment_from_cells`: all truthy cell comments joined by newlines. -/
def getCommentFromCells (row : Row) : String :=
  String.intercalate "\n"
    (row.cells.filterMap fun p =>
      match p.2.comment with
      | some c => if c = "" then none else some c
      | none => none)

/-- Python `a or b` on the two column-substring lookups. -/
def getVal2 (row : Row) (a b : String) : String :=
  let v := getValueFromCells row a
  if v ≠ "" then v else getValueFromCells row b

/-- Evaluate one attribute rule on a row: note-JSON first (a null there
counts as absent), then column values, then value map and transform. -/
def ruleFind (noteJson : List (String × JVal)) (row : Row) (rule : AttrRule) :
    Option JVal :=
  let s1 : Option JVal :=
    if noteJson.isEmpty then none
    else
      match rule.keys.find? fun k => jsonHasKey noteJson k with
      | some k => jsonGet noteJson k
      | none => none
  let s1v : Option JVal :=
    match s1 with
    | some .jnull => none
    | x => x
  let s2 : Option JVal :=
    match s1v with
    | some v => some v
    | none =>
      match rule.keys.find? fun k => getValueFromCells row k ≠ "" with
      | some k => some (.jstr (getValueFromCells row k))
      | none => none
  match s2 with
  | none => none
  | some v =>
    let v1 := match rule.valueMap with
      | some vm => applyValueMap vm v
      | none => v
    let v2 := match rule.transform with
      | some t => applyTransform t v1
      | none => v1
    some v2

/-- First rule of the list yielding a value wins. -/
def attrValue (noteJson : List (String × JVal)) (row : Row)
    (rules : List AttrRule) : Option JVal :=
  rules.findSome? (ruleFind noteJson row)

/-- The configured delay threshold in minutes. -/
def threshold_minutes : Nat := 3

/-- The delay in whole minutes when the strict-threshold delay rule fires:
the first embedded `YYYY-MM-DD HH:MM:SS` of the content and the row's own
time value must both parse, and their difference must exceed the threshold
(in exact arithmetic, `diff_seconds/60 > 3` iff `diff_seconds > 180`);
`int()` of the positive minute difference is its floor. -/
def delayMinutes (content timeStr : String) : Option Nat :=
  match scanTsMatch content.data with
  | none => none
  | some cts =>
    if timeStr = "" then none
    else
      match parseTimestamp timeStr, parseTimestamp cts with
      | some rdt, some cdt =>
        let d := dtSecs rdt - dtSecs cdt
        if 60 * (threshold_minutes : Int) < d then some (d.toNat / 60) else none
      | _, _ => none

/-- Embeds `_extract_attributes` of the source. -/
def extract_attributes (row : Row) : List (String × JVal) :=
  let noteJson := extract_json_from_comment (getCommentFromCells row)
  let base := global_attr_config.filterMap fun p =>
    (attrValue noteJson row p.2).map fun v => (p.1, v)
  let contentVal := getVal2 row "内容" "Content"
  let timeStr := getVal2 row "时间" "Time"
  let delay : List (String × JVal) :=
    if contentVal ≠ "" && timeStr ≠ "" then
      match scanTsMatch contentVal.data with
      | some cts =>
        match parseTimestamp timeStr, parseTimestamp cts with
        | some rdt, some cdt =>
          let d := dtSecs rdt - dtSecs cdt
          if 0 < d then [("延时时长", .jstr (toString (d / 60) ++ "m"))] else []
        | _, _ => []
      | none => []
    else []
  base ++ delay

/-- The configured non-critical keyword list. -/
def nonCriticalKeywords : List String :=
  ["391(管理综合故障)", "7C8(前门门机警告类综合故障)", "00305025(前门关门轻故障)"]

/-- The non-critical test: any configured keyword occurs in the content.
The configured regex list of the source is empty, so its branch never
fires and contributes nothing. -/
def isNonCritical (content : String) : Bool :=
  nonCriticalKeywords.any fun kw => pyContains content kw

/-- The non-critical tag literal. -/
def ncTag : String := "【ℹ️非关键】"

/-- The human-operation tag literal. -/
def humanTag : String := "【⚠️现场人工操作】"

/-- The work-order tag literal. -/
def woTag : String := "【🚨高优先级-工单】"

/-- The delayed-upload tag carrying the whole-minute delay. -/
def delayTag (n : Nat) : String := "【⏳延时上传:" ++ toString n ++ "分】"

/-- The delay tag as a (zero- or one-element) tag list. -/
def delayTagList (content timeStr : String) : List String :=
  match delayMinutes content timeStr with
  | some n => [delayTag n]
  | none => []

/-- Value of an uppercase hex digit. -/
def hexVal (c : Char) : Option Nat :=
  if '0' ≤ c && c ≤ '9' then some (c.toNat - 48)
  else if 'A' ≤ c && c ≤ 'F' then some (c.toNat - 55)
  else none

/-- Embeds `_is_purple_color`: uppercase, drop `#`, require six hex digits, then
red > 100 and blue > 100 and green < 100; any parse failure is `false`. -/
def isPurpleColor (hex : String) : Bool :=
  let h := (hex.data.map Char.toUpper).filter fun c => c ≠ '#'
  match h with
  | [a, b, c, d, e, f] =>
    match hexVal a, hexVal b, hexVal c, hexVal d, hexVal e, hexVal f with
    | some a1, some b1, some c1, some d1, some e1, some f1 =>
      100 < a1 * 16 + b1 && 100 < e1 * 16 + f1 && c1 * 16 + d1 < 100
    | _, _, _, _, _, _ => false
  | _ => false

/-- The human-operation test: any cell background passes the purple
heuristic, or the content contains one of the two fixed phrases. -/
def isHumanOp (row : Row) (content : String) : Bool :=
  (row.cells.any fun p =>
    match p.2.bgColor with
    | some h => isPurpleColor h
    | none => false) ||
  pyContains content "检修" || pyContains content "机修工单"

/-- Embeds `_get_tags` of the source (also the tag computation `process` inlines):
empty content yields no tags, otherwise the four rules append in order. -/
def get_tags (row : Row) : List String :=
  let content := getVal2 row "内容" "Content"
  let timeStr := getVal2 row "时间" "Time"
  if content = "" then []
  else
    (if isNonCritical content then [ncTag] else []) ++
    delayTagList content timeStr ++
    (if isHumanOp row content then [humanTag] else []) ++
    (if pyContains content "工单" then [woTag] else [])

/-- The enrichment loop of the upload handler: every row gains its
`global_attributes` and `tags`. -/
structure EnrichedRow where
  row : Row
  global_attributes : List (String × JVal)
  tags : List String

/-- Embeds `for row in rows: row["global_attributes"] = ...; row["tags"] = ...`. -/
def enrichRows (rows : List Row) : List EnrichedRow :=
  rows.map fun r => ⟨r, extract_attributes r, get_tags r⟩

/-! ## `TimelinePreprocessor.process` -/

structure IgnoredRec where
  id : Nat
  time : String
  content : String
  reason : String
deriving DecidableEq, Repr

structure DelayedRec where
  id : Nat
  time : String
  content : String
  delayMin : Nat
deriving DecidableEq, Repr

structure AttrRec where
  id : Nat
  time : String
  content : String
  extractedAttrs : List String
deriving DecidableEq, Repr

structure ProcResult where
  lines : List String
  ignored : List IgnoredRec
  delayed : List DelayedRec
  attrRows : List AttrRec
deriving Repr

/-- The rendered attribute strings `f"{k}={v}"`. -/
def renderSignals (attrs : List (String × JVal)) : List String :=
  attrs.map fun p => p.1 ++ "=" ++ pyShowJ p.2

/-- The enriched line `process` emits for one surviving row. -/
def renderLine (row : Row) : String :=
  let timeStr := getVal2 row "时间" "Time"
  let content := getVal2 row "内容" "Content"
  let tags := get_tags row
  let signals := renderSignals (extract_attributes row)
  let l1 := "[" ++ timeStr ++ "]" ++
    (if tags.isEmpty then "" else " " ++ String.intercalate " " tags) ++
    " " ++ content
  if signals.isEmpty then l1 else l1 ++ "\n   >> 全局属性: " ++ String.intercalate ", " signals

/-- The reason string of a non-critical debug record. -/
def ncReason : String := "Matched non-critical keyword/regex"

/-- Embeds `TimelinePreprocessor.process(rows, return_logs)`: one pass over the
rows, skipping empty content before tagging, logging (when asked) the
ignored, delayed and attribute-bearing rows, and dropping rows whose tag
list contains the non-critical tag from the rendered lines. -/
def processTimeline : List Row → Bool → ProcResult
  | [], _ => ⟨[], [], [], []⟩
  | r :: rest, lg =>
    let acc := processTimeline rest lg
    let timeStr := getVal2 r "时间" "Time"
    let content := getVal2 r "内容" "Content"
    if content = "" then acc
    else
      let tags := get_tags r
      let signals := renderSignals (extract_attributes r)
      let ignoredHere : List IgnoredRec :=
        if isNonCritical content && lg then
          [⟨r.id, timeStr, content, ncReason⟩]
        else []
      let delayedHere : List DelayedRec :=
        match delayMinutes content timeStr with
        | some n => if lg then [⟨r.id, timeStr, content, n⟩] else []
        | none => []
      let attrHere : List AttrRec :=
        if !signals.isEmpty && lg then
          [⟨r.id, timeStr, content, signals⟩]
        else []
      let lineHere : List String :=
        if ncTag ∈ tags then [] else [renderLine r]
      ⟨lineHere ++ acc.lines, ignoredHere ++ acc.ignored,
       delayedHere ++ acc.delayed, attrHere ++ acc.attrRows⟩

/-- The plain-text result of `process`. -/
def processText (rows : List Row) : String :=
  String.intercalate "\n" (processTimeline rows false).lines

/-! ## Concrete fixtures used by the claim theorems -/

/-- A two-cell row: device/contract column and content column. -/
def mkRow2 (i : Nat) (dev content : String) : Row :=
  ⟨i, [("合同号", ⟨some dev, none, none⟩), ("内容", ⟨some content, none, none⟩)]⟩

/-- A four-cell row: device, time, type and content columns. -/
def mkRow4 (i : Nat) (dev time ty content : String) : Row :=
  ⟨i, [("合同号", ⟨some dev, none, none⟩), ("装置时间", ⟨some time, none, none⟩),
       ("类型", ⟨some ty, none, none⟩), ("信息内容", ⟨some content, none, none⟩)]⟩

/-- Headers with a device and a content column but no time column. -/
def hdrNoTime : List String := ["序号", "合同号", "内容"]

/-- Headers with device, time, type and content columns. -/
def hdrFull : List String := ["序号", "合同号", "装置时间", "类型", "信息内容"]

/-- A complete synthetic control cluster: exactly the ids 53552..53558. -/
def c1RowsComplete : List Row :=
  [mkRow2 1 "C1" "Trace: 53552", mkRow2 2 "C1" "Trace: 53553",
   mkRow2 3 "C1" "Trace: 53554", mkRow2 4 "C1" "Trace: 53555",
   mkRow2 5 "C1" "Trace: 53556", mkRow2 6 "C1" "Trace: 53557",
   mkRow2 7 "C1" "Trace: 53558"]

/-- The same cluster with 53553 absent. -/
def c1RowsMissing : List Row :=
  [mkRow2 1 "C1" "Trace: 53552", mkRow2 3 "C1" "Trace: 53554",
   mkRow2 4 "C1" "Trace: 53555", mkRow2 5 "C1" "Trace: 53556",
   mkRow2 6 "C1" "Trace: 53557", mkRow2 7 "C1" "Trace: 53558"]

/-- Two D240 rows sharing device, device time and inner timestamp, with
fault entries 697(...) and 434(...). -/
def c2Rows : List Row :=
  [mkRow4 1 "C1" "2025-12-08 10:18:10" "故障代码D240"
     ("[2025-12-08 10:18:04 120ms] [" ++ sq ++ "697(管理故障)" ++ sq ++ "]"),
   mkRow4 2 "C1" "2025-12-08 10:18:10" "故障代码D240"
     ("[2025-12-08 10:18:04 120ms] [" ++ sq ++ "434(安全回路断开)" ++ sq ++ "]")]

/-- The merged D240 row the source produces for `c2Rows`. -/
def c2Merged : String :=
  "[2025-12-08 10:18:04 120ms] [" ++ sq ++ "434(安全回路断开)" ++ sq ++ "][" ++
    sq ++ "697(管理故障)" ++ sq ++ "]"

/-- Rows with a trace center and one companion, used against headers that
lack a time column. -/
def c4Rows : List Row :=
  [mkRow2 1 "C1" "Trace: 53552", mkRow2 2 "C1" "Trace: 53553"]

/-- A cluster whose center content is itself a bracketed trace marker, so
the produced summary still matches the trace-id extraction pattern. -/
def c6Rows : List Row :=
  [mkRow2 1 "C1" "[Trace: 53552]", mkRow2 2 "C1" "Trace: 53553",
   mkRow2 3 "C1" "Trace: 53554", mkRow2 4 "C1" "Trace: 53555",
   mkRow2 5 "C1" "Trace: 53556", mkRow2 6 "C1" "Trace: 53557",
   mkRow2 7 "C1" "Trace: 53558"]

/-- A row whose own time is exactly `threshold_minutes` past the content
timestamp (180 seconds): not tagged under the strict comparison. -/
def c7RowExact : Row :=
  ⟨5, [("装置时间", ⟨some "2025-12-08 10:03:00", none, none⟩),
       ("信息内容", ⟨some "事件 2025-12-08 10:00:00 上报", none, none⟩)]⟩

/-- One second beyond the threshold (181 seconds): tagged with 3 minutes. -/
def c7RowLate : Row :=
  ⟨6, [("装置时间", ⟨some "2025-12-08 10:03:01", none, none⟩),
       ("信息内容", ⟨some "事件 2025-12-08 10:00:00 上报", none, none⟩)]⟩

/-- A row matching a configured non-critical keyword. -/
def c8RowNc : Row :=
  ⟨7, [("装置时间", ⟨some "10:00:00", none, none⟩),
       ("信息内容", ⟨some "391(管理综合故障)发生", none, none⟩)]⟩

/-- An ordinary row with no matching keyword. -/
def c8RowOk : Row :=
  ⟨8, [("装置时间", ⟨some "10:00:05", none, none⟩),
       ("信息内容", ⟨some "电梯正常运行", none, none⟩)]⟩

/-- The row list of the non-critical filtering witness. -/
def c8Rows : List Row := [c8RowNc, c8RowOk]

/-- Two control-trace centers of the same device, each inside the other's
(row-window) candidate range. -/
def c9Rows : List Row :=
  [mkRow2 1 "C1" "Trace: 53552", mkRow2 2 "C1" "Trace: 53552"]

/-- A center with a parseable time next to a family member whose own time
value parses with none of the accepted formats. -/
def c10Rows : List Row :=
  [mkRow4 1 "C1" "2025-12-08 10:00:00" "" "Trace: 53552",
   mkRow4 2 "C1" "没有时间" "" "Trace: 53553"]

/-! ## Claim-side formulations -/

/-- Does `process` keep this row in the rendered text (nonempty content and
not non-critical)? -/
def keepRow (r : Row) : Bool :=
  (getVal2 r "内容" "Content" != "") && !(isNonCritical (getVal2 r "内容" "Content"))

/-- Is this row logged as ignored (nonempty content and non-critical)? -/
def ncRow (r : Row) : Bool :=
  (getVal2 r "内容" "Content" != "") && isNonCritical (getVal2 r "内容" "Content")

/-- The debug record `process` emits for an ignored row. -/
def mkIgnored (r : Row) : IgnoredRec :=
  ⟨r.id, getVal2 r "时间" "Time", getVal2 r "内容" "Content", ncReason⟩

/-- The candidate set exactly as claim C5 words it: rows within ±50
positions (inclusive on both sides) whose timestamp lies in the relative
interval, resp. within ±20 positions in the fallback. -/
def claimC5Candidates (dIdx : List Nat) (i : Nat) (centerT : Option Int)
    (rowT : Nat → Option Int) : List Nat :=
  match centerT with
  | some ct =>
    dIdx.enum.filterMap fun p =>
      if i ≤ p.1 + 50 ∧ p.1 ≤ i + 50 then
        match rowT p.2 with
        | some t => if -10 ≤ t - ct ∧ t - ct ≤ 20 then some p.2 else none
        | none => none
      else none
  | none =>
    dIdx.enum.filterMap fun p =>
      if i ≤ p.1 + 20 ∧ p.1 ≤ i + 20 then some p.2 else none

/-! ## Supporting lemmas -/

theorem mem_of_getElemOpt {α : Type} {l : List α} {n : Nat} {a : α}
    (h : l[n]? = some a) : a ∈ l := by
  rw [List.getElem?_eq_some] at h
  obtain ⟨hn, rfl⟩ := h
  exact List.getElem_mem hn

theorem insertGroup_forall {κ β : Type} [DecidableEq κ] (P : β → Prop)
    (acc : List (κ × List β)) (k : κ) (i : β)
    (hacc : ∀ g ∈ acc, ∀ x ∈ g.2, P x) (hi : P i) :
    ∀ g ∈ insertGroup acc k i, ∀ x ∈ g.2, P x := by
  induction acc with
  | nil =>
    intro g hg x hx
    simp only [insertGroup, List.mem_singleton] at hg
    subst hg
    simp only [List.mem_singleton] at hx
    subst hx
    exact hi
  | cons hd tl ih =>
    intro g hg x hx
    obtain ⟨k0, l⟩ := hd
    simp only [insertGroup] at hg
    by_cases hk : k0 = k
    · rw [if_pos hk] at hg
      rcases List.mem_cons.mp hg with rfl | hg2
      · rcases List.mem_append.mp hx with hx2 | hx2
        · exact hacc (k0, l) (by simp) x hx2
        · simp only [List.mem_singleton] at hx2
          subst hx2
          exact hi
      · exact hacc g (by simp [hg2]) x hx
    · rw [if_neg hk] at hg
      rcases List.mem_cons.mp hg with rfl | hg2
      · exact hacc (k0, l) (by simp) x hx
      · exact ih (fun g2 hg3 => hacc g2 (by simp [hg3])) g hg2 x hx

theorem foldl_insertGroup_forall {α κ β : Type} [DecidableEq κ] (P : β → Prop)
    (key : α → κ) (val : α → β) :
    ∀ (l : List α) (acc : List (κ × List β)),
      (∀ g ∈ acc, ∀ x ∈ g.2, P x) → (∀ p ∈ l, P (val p)) →
      ∀ g ∈ l.foldl (fun acc2 p => insertGroup acc2 (key p) (val p)) acc,
        ∀ x ∈ g.2, P x := by
  intro l
  induction l with
  | nil =>
    intro acc hacc _
    simpa using hacc
  | cons hd tl ih =>
    intro acc hacc hl
    simp only [List.foldl_cons]
    exact ih _ (insertGroup_forall P acc (key hd) (val hd) hacc (hl hd (by simp)))
      (fun p hp => hl p (by simp [hp]))

theorem deviceGroups_idx_lt (rows : List Row) (dcol : Option String) :
    ∀ g ∈ deviceGroups rows dcol, ∀ idx ∈ g.2, idx < rows.length := by
  unfold deviceGroups
  refine foldl_insertGroup_forall (fun i => i < rows.length)
    (fun p => deviceKey p.2 dcol) Prod.fst rows.enum [] (by simp) ?_
  intro p hp
  obtain ⟨i, r⟩ := p
  have h2 := List.mk_mem_enum_iff_getElem?.mp hp
  rw [List.getElem?_eq_some] at h2
  exact h2.1

theorem filterMap_some_snd {α β : Type} (l : List (α × β)) :
    (l.filterMap fun p => some p.2) = l.map Prod.snd := by
  induction l with
  | nil => rfl
  | cons hd tl ih => simp [List.filterMap_cons, ih]

theorem rebuildRows_empty (rows : List Row) (ccol : String) :
    rebuildRows rows ccol [] [] = rows := by
  unfold rebuildRows
  simp only [List.not_mem_nil, if_false, List.find?_nil, Option.map_none']
  rw [filterMap_some_snd, List.enum_map_snd]

theorem rebuildRows_length_le (rows : List Row) (ccol : String)
    (repls : List (Nat × String)) (skips : List Nat) :
    (rebuildRows rows ccol repls skips).length ≤ rows.length := by
  unfold rebuildRows
  exact le_trans (List.length_filterMap_le _ _) (le_of_eq List.enum_length)

theorem rebuildRowsD_length_le (rows : List Row) (mods : List (Nat × Row))
    (removals : List Nat) :
    (rebuildRowsD rows mods removals).length ≤ rows.length := by
  unfold rebuildRowsD
  exact le_trans (List.length_filterMap_le _ _) (le_of_eq List.enum_length)

theorem strLeL_total (a : List Char) : ∀ b, (strLeL a b || strLeL b a) = true := by
  induction a with
  | nil => intro b; simp [strLeL]
  | cons x xs ih =>
    intro b
    cases b with
    | nil => simp [strLeL]
    | cons y ys =>
      by_cases h1 : x < y
      · simp [strLeL, h1]
      · by_cases h2 : y < x
        · simp [strLeL, h1, h2]
        · have hxy : x = y := le_antisymm (not_lt.mp h2) (not_lt.mp h1)
          subst hxy
          simpa [strLeL, h1, h2] using ih ys

theorem strLeL_trans (a : List Char) :
    ∀ b c, strLeL a b = true → strLeL b c = true → strLeL a c = true := by
  induction a with
  | nil => intro b c _ _; simp [strLeL]
  | cons x xs ih =>
    intro b c hab hbc
    cases b with
    | nil => simp [strLeL] at hab
    | cons y ys =>
      cases c with
      | nil => simp [strLeL] at hbc
      | cons z zs =>
        simp only [strLeL] at hab hbc ⊢
        by_cases h1 : x < y
        · by_cases h2 : y < z
          · simp [lt_trans h1 h2]
          · by_cases h3 : z < y
            · simp [strLeL, h2, h3] at hbc
            · have : y = z := le_antisymm (not_lt.mp h3) (not_lt.mp h2)
              subst this
              simp [h1]
        · by_cases h4 : y < x
          · simp [h1, h4] at hab
          · have : x = y := le_antisymm (not_lt.mp h4) (not_lt.mp h1)
            subst this
            by_cases h2 : x < z
            · simp [h2]
            · by_cases h3 : z < x
              · simp [h2, h3] at hbc
              · have : x = z := le_antisymm (not_lt.mp h3) (not_lt.mp h2)
                subst this
                simp only [lt_irrefl, if_false] at hab hbc ⊢
                exact ih ys zs hab hbc

theorem mem_insertSorted {α : Type} (le : α → α → Bool) (x a : α) (l : List α) :
    a ∈ insertSorted le x l ↔ a = x ∨ a ∈ l := by
  induction l with
  | nil => simp [insertSorted]
  | cons y ys ih =>
    by_cases h : le y x
    · simp only [insertSorted, if_pos h, List.mem_cons, ih]
      tauto
    · simp only [insertSorted, if_neg h, List.mem_cons]

theorem pairwise_insertSorted {α : Type} (le : α → α → Bool)
    (htot : ∀ a b, (le a b || le b a) = true)
    (htr : ∀ a b c, le a b = true → le b c = true → le a c = true)
    (x : α) (l : List α) (hl : l.Pairwise fun a b => le a b = true) :
    (insertSorted le x l).Pairwise fun a b => le a b = true := by
  induction l with
  | nil => simp [insertSorted]
  | cons y ys ih =>
    rcases List.pairwise_cons.mp hl with ⟨hy, hys⟩
    by_cases h : le y x
    · rw [insertSorted, if_pos h]
      refine List.pairwise_cons.mpr ⟨?_, ih hys⟩
      intro a ha
      rcases (mem_insertSorted le x a ys).mp ha with rfl | ha2
      · exact h
      · exact hy a ha2
    · have hxy : le x y = true := by
        rcases Bool.or_eq_true_iff.mp (htot y x) with h2 | h2
        · exact absurd h2 h
        · rcases Bool.or_eq_true_iff.mp (htot x y) with h3 | h3
          · exact h3
          · exact absurd h3 h
      rw [insertSorted, if_neg h]
      refine List.pairwise_cons.mpr ⟨?_, hl⟩
      intro a ha
      rcases List.mem_cons.mp ha with rfl | ha2
      · exact hxy
      · exact htr x y a hxy (hy a ha2)

theorem pairwise_sortStable {α : Type} (le : α → α → Bool)
    (htot : ∀ a b, (le a b || le b a) = true)
    (htr : ∀ a b c, le a b = true → le b c = true → le a c = true)
    (l : List α) :
    (sortStable le l).Pairwise fun a b => le a b = true := by
  unfold sortStable
  suffices h : ∀ (l2 : List α) (acc : List α),
      (acc.Pairwise fun a b => le a b = true) →
      ((l2.foldl (fun acc2 x => insertSorted le x acc2) acc).Pairwise
        fun a b => le a b = true) by
    exact h l [] (by simp)
  intro l2
  induction l2 with
  | nil => intro acc hacc; simpa using hacc
  | cons x xs ih =>
    intro acc hacc
    exact ih _ (pairwise_insertSorted le htot htr x acc hacc)

theorem ne_of_take2 {s t : String} (h : s.data.take 2 ≠ t.data.take 2) : s ≠ t :=
  fun he => h (by rw [he])

theorem delayTag_take2 (n : Nat) : (delayTag n).data.take 2 = "【⏳".data := by
  unfold delayTag
  rw [String.data_append, String.data_append]
  rw [List.take_append_of_le_length
    (le_trans (by decide : 2 ≤ "【⏳延时上传:".data.length) (by simp))]
  rw [List.take_append_of_le_length (by decide)]
  decide

theorem delayTag_ne_ncTag (n : Nat) : delayTag n ≠ ncTag :=
  ne_of_take2 (by rw [delayTag_take2]; decide)

theorem delayTag_ne_humanTag (n : Nat) : delayTag n ≠ humanTag :=
  ne_of_take2 (by rw [delayTag_take2]; decide)

theorem delayTag_ne_woTag (n : Nat) : delayTag n ≠ woTag :=
  ne_of_take2 (by rw [delayTag_take2]; decide)

theorem ncTag_mem_get_tags (row : Row) :
    ncTag ∈ get_tags row ↔
      getVal2 row "内容" "Content" ≠ "" ∧
        isNonCritical (getVal2 row "内容" "Content") = true := by
  unfold get_tags
  by_cases hc : getVal2 row "内容" "Content" = ""
  · simp [hc]
  · rw [if_neg hc]
    constructor
    · intro h
      refine ⟨hc, ?_⟩
      rcases List.mem_append.mp h with h1 | h4
      · rcases List.mem_append.mp h1 with h2 | h3
        · rcases List.mem_append.mp h2 with ha | hb
          · by_cases hn : isNonCritical (getVal2 row "内容" "Content")
            · exact hn
            · simp [hn] at ha
          · exfalso
            unfold delayTagList at hb
            cases hdm : delayMinutes (getVal2 row "内容" "Content")
                (getVal2 row "时间" "Time") with
            | none => rw [hdm] at hb; simp at hb
            | some m =>
              rw [hdm] at hb
              simp only [List.mem_singleton] at hb
              exact delayTag_ne_ncTag m hb.symm
        · exfalso
          by_cases hh : isHumanOp row (getVal2 row "内容" "Content")
          · rw [if_pos hh] at h3
            simp only [List.mem_singleton] at h3
            exact absurd h3 (by decide)
          · simp [hh] at h3
      · exfalso
        by_cases hw : pyContains (getVal2 row "内容" "Content") "工单"
        · rw [if_pos hw] at h4
          simp only [List.mem_singleton] at h4
          exact absurd h4 (by decide)
        · simp [hw] at h4
    · intro hn
      exact List.mem_append.mpr (Or.inl (List.mem_append.mpr (Or.inl
        (List.mem_append.mpr (Or.inl (by simp [hn.2]))))))

theorem processTimeline_lines (rows : List Row) (lg : Bool) :
    (processTimeline rows lg).lines = (rows.filter keepRow).map renderLine := by
  induction rows with
  | nil => rfl
  | cons r rest ih =>
    by_cases hc : getVal2 r "内容" "Content" = ""
    · have hk : keepRow r = false := by simp [keepRow, hc]
      simp [processTimeline, hc, hk, ih]
    · by_cases hn : isNonCritical (getVal2 r "内容" "Content")
      · have hmem : ncTag ∈ get_tags r := (ncTag_mem_get_tags r).mpr ⟨hc, hn⟩
        have hk : keepRow r = false := by simp [keepRow, hc, hn]
        simp [processTimeline, hc, hmem, hk, ih]
      · have hmem : ncTag ∉ get_tags r := fun h => hn ((ncTag_mem_get_tags r).mp h).2
        have hk : keepRow r = true := by simp [keepRow, hc, hn]
        simp [processTimeline, hc, hmem, hk, ih]

theorem processTimeline_ignored (rows : List Row) :
    (processTimeline rows true).ignored = (rows.filter ncRow).map mkIgnored := by
  induction rows with
  | nil => rfl
  | cons r rest ih =>
    by_cases hc : getVal2 r "内容" "Content" = ""
    · have hk : ncRow r = false := by simp [ncRow, hc]
      simp [processTimeline, hc, hk, ih]
    · by_cases hn : isNonCritical (getVal2 r "内容" "Content")
      · have hk : ncRow r = true := by simp [ncRow, hc, hn]
        simp [processTimeline, hc, hn, hk, ih, mkIgnored]
      · have hk : ncRow r = false := by simp [ncRow, hc, hn]
        simp [processTimeline, hc, hn, hk, ih]

theorem centerResult_none (rows : List Row) (ccol : String) (tcol : Option String)
    (dIdx : List Nat) (i idx : Nat)
    (h1 : extract_id (contentOpt rows ccol idx) ≠ some "53552")
    (h2 : extract_id (contentOpt rows ccol idx) ≠ some "53504") :
    centerResult rows ccol tcol dIdx i idx = none := by
  unfold centerResult
  simp [h1, h2]

theorem aggregate_traces_no_center (rows : List Row) (headers : List String)
    (h : ∀ ccol, findCol headers "内容" = some ccol → ∀ idx, idx < rows.length →
      extract_id (contentOpt rows ccol idx) ≠ some "53552" ∧
      extract_id (contentOpt rows ccol idx) ≠ some "53504") :
    aggregate_traces rows headers = rows := by
  unfold aggregate_traces
  by_cases he : rows.isEmpty
  · rw [if_pos he]
  · rw [if_neg he]
    cases hf : findCol headers "内容" with
    | none => rfl
    | some ccol =>
      have hcr : ∀ g ∈ deviceGroups rows (deviceCol headers), ∀ p ∈ g.2.enum,
          centerResult rows ccol (findCol headers "时间") g.2 p.1 p.2 = none := by
        intro g hg p hp
        have hidx : p.2 ∈ g.2 := by
          obtain ⟨i, x⟩ := p
          exact mem_of_getElemOpt (List.mk_mem_enum_iff_getElem?.mp hp)
        have hlt := deviceGroups_idx_lt rows (deviceCol headers) g hg p.2 hidx
        obtain ⟨h1, h2⟩ := h ccol hf p.2 hlt
        exact centerResult_none rows ccol (findCol headers "时间") g.2 p.1 p.2 h1 h2
      have hrep : aggregateRepls rows ccol (findCol headers "时间") (deviceCol headers) = [] := by
        unfold aggregateRepls
        rw [List.flatMap_eq_nil_iff]
        intro g hg
        unfold groupRepls
        rw [List.filterMap_eq_nil_iff]
        intro p hp
        rw [hcr g hg p hp]
        rfl
      have hsk : aggregateSkips rows ccol (findCol headers "时间") (deviceCol headers) = [] := by
        unfold aggregateSkips
        rw [List.flatMap_eq_nil_iff]
        intro g hg
        unfold groupSkips
        rw [List.flatMap_eq_nil_iff]
        intro p hp
        rw [hcr g hg p hp]
      show rebuildRows rows ccol
          (aggregateRepls rows ccol (findCol headers "时间") (deviceCol headers))
          (aggregateSkips rows ccol (findCol headers "时间") (deviceCol headers)) = rows
      rw [hrep, hsk, rebuildRows_empty]

theorem candidate_time_some (dIdx : List Nat) (i : Nat) (ct : Int)
    (rowT : Nat → Option Int) (c : Nat)
    (h : c ∈ candidateIdxs dIdx i (some ct) rowT) : rowT c ≠ none := by
  unfold candidateIdxs at h
  rcases List.mem_filterMap.mp h with ⟨p, _, hf⟩
  by_cases hcnd : i - 50 ≤ p.1 ∧ p.1 < i + 50
  · rw [if_pos hcnd] at hf
    cases hrt : rowT p.2 with
    | none => rw [hrt] at hf; simp at hf
    | some t =>
      rw [hrt] at hf
      simp only [Option.ite_none_right_eq_some, Option.some.injEq] at hf
      rw [← hf.2, hrt]
      simp
  · rw [if_neg hcnd] at hf
    simp at hf

theorem centerResult_some_inv (rows : List Row) (ccol : String)
    (tcol : Option String) (dIdx : List Nat) (i idx : Nat) (r : String × List Nat)
    (h : centerResult rows ccol tcol dIdx i idx = some r) :
    (extract_id (contentOpt rows ccol idx) = some "53552" ∧
      r.2 = centerCluster rows ccol tcol dIdx i idx control_target) ∨
    (extract_id (contentOpt rows ccol idx) = some "53504" ∧
      r.2 = centerCluster rows ccol tcol dIdx i idx mgmt_target) := by
  unfold centerResult at h
  by_cases h1 : extract_id (contentOpt rows ccol idx) = some "53552"
  · left
    refine ⟨h1, ?_⟩
    rw [if_pos h1] at h
    rw [← Option.some.inj h]
  · rw [if_neg h1] at h
    by_cases h2 : extract_id (contentOpt rows ccol idx) = some "53504"
    · right
      refine ⟨h2, ?_⟩
      rw [if_pos h2] at h
      rw [← Option.some.inj h]
    · rw [if_neg h2] at h
      exact absurd h (by simp)

theorem centerCluster_subset_candidates (rows : List Row) (ccol : String)
    (tcol : Option String) (dIdx : List Nat) (i idx : Nat) (tgt : List String)
    (c : Nat) (h : c ∈ centerCluster rows ccol tcol dIdx i idx tgt) :
    c ∈ centerCandidates rows tcol dIdx i idx := by
  unfold centerCluster centerHits at h
  rcases List.mem_map.mp h with ⟨pr, hpr, hfst⟩
  rcases List.mem_filterMap.mp hpr with ⟨c2, hc2, hf⟩
  cases hid : extract_id (contentOpt rows ccol c2) with
  | none => rw [hid] at hf; simp at hf
  | some cid =>
    rw [hid] at hf
    simp only [Option.ite_none_right_eq_some, Option.some.injEq] at hf
    rw [← hf.2] at hfst
    rw [← hfst]
    exact hc2

theorem mem_centerCluster_of (rows : List Row) (ccol : String)
    (tcol : Option String) (dIdx : List Nat) (i idx : Nat) (tgt : List String)
    (b : Nat) (cid : String)
    (hc : b ∈ centerCandidates rows tcol dIdx i idx)
    (hid : extract_id (contentOpt rows ccol b) = some cid)
    (htgt : cid ∈ tgt) :
    b ∈ centerCluster rows ccol tcol dIdx i idx tgt := by
  unfold centerCluster centerHits
  apply List.mem_map.mpr
  refine ⟨(b, cid), ?_, rfl⟩
  apply List.mem_filterMap.mpr
  refine ⟨b, hc, ?_⟩
  rw [hid]
  simp [htgt]

theorem centerFound_inv (rows : List Row) (ccol : String) (tcol : Option String)
    (dIdx : List Nat) (i idx : Nat) (tgt : List String) (mid : String)
    (h : mid ∈ centerFound rows ccol tcol dIdx i idx tgt) :
    ∃ c ∈ centerCandidates rows tcol dIdx i idx,
      extract_id (contentOpt rows ccol c) = some mid := by
  unfold centerFound centerHits at h
  rcases List.mem_map.mp h with ⟨pr, hpr, hsnd⟩
  rcases List.mem_filterMap.mp hpr with ⟨c, hc, hf⟩
  cases hid : extract_id (contentOpt rows ccol c) with
  | none => rw [hid] at hf; simp at hf
  | some cid =>
    rw [hid] at hf
    simp only [Option.ite_none_right_eq_some, Option.some.injEq] at hf
    rw [← hf.2] at hsnd
    simp only at hsnd
    exact ⟨c, hc, by rw [hid, hsnd]⟩

theorem mem_groupSkips_of (rows : List Row) (ccol : String) (tcol : Option String)
    (dIdx : List Nat) (p : Nat × Nat) (r : String × List Nat) (b : Nat)
    (hp : p ∈ dIdx.enum)
    (hr : centerResult rows ccol tcol dIdx p.1 p.2 = some r)
    (hb : b ∈ r.2) (hne : b ≠ p.2) :
    b ∈ groupSkips rows ccol tcol dIdx := by
  unfold groupSkips
  apply List.mem_flatMap.mpr
  refine ⟨p, hp, ?_⟩
  rw [hr]
  exact List.mem_filter.mpr ⟨hb, by simp [hne]⟩

theorem mem_aggregateSkips_of (rows : List Row) (ccol : String)
    (tcol dcol : Option String) (g : String × List Nat) (b : Nat)
    (hg : g ∈ deviceGroups rows dcol)
    (hb : b ∈ groupSkips rows ccol tcol g.2) :
    b ∈ aggregateSkips rows ccol tcol dcol := by
  unfold aggregateSkips
  exact List.mem_flatMap.mpr ⟨g, hg, hb⟩

theorem aggregateSkips_inv (rows : List Row) (ccol : String)
    (tcol dcol : Option String) (b : Nat)
    (h : b ∈ aggregateSkips rows ccol tcol dcol) :
    ∃ g ∈ deviceGroups rows dcol, ∃ p ∈ g.2.enum, ∃ r,
      centerResult rows ccol tcol g.2 p.1 p.2 = some r ∧ b ∈ r.2 ∧ b ≠ p.2 := by
  unfold aggregateSkips at h
  rcases List.mem_flatMap.mp h with ⟨g, hg, hb⟩
  unfold groupSkips at hb
  rcases List.mem_flatMap.mp hb with ⟨p, hp, hb2⟩
  cases hr : centerResult rows ccol tcol g.2 p.1 p.2 with
  | none => rw [hr] at hb2; simp at hb2
  | some r =>
    rw [hr] at hb2
    have hb3 := List.mem_filter.mp hb2
    exact ⟨g, hg, p, hp, r, hr, hb3.1, by simpa using hb3.2⟩

theorem aggregateRepls_inv (rows : List Row) (ccol : String)
    (tcol dcol : Option String) (q : Nat × String)
    (h : q ∈ aggregateRepls rows ccol tcol dcol) :
    ∃ g ∈ deviceGroups rows dcol, ∃ p ∈ g.2.enum, p.2 = q.1 ∧
      (extract_id (contentOpt rows ccol q.1) = some "53552" ∨
       extract_id (contentOpt rows ccol q.1) = some "53504") := by
  unfold aggregateRepls at h
  rcases List.mem_flatMap.mp h with ⟨g, hg, hq⟩
  unfold groupRepls at hq
  rcases List.mem_filterMap.mp hq with ⟨p, hp, hf⟩
  cases hr : centerResult rows ccol tcol g.2 p.1 p.2 with
  | none => rw [hr] at hf; simp at hf
  | some r =>
    rw [hr] at hf
    simp only [Option.map_some'] at hf
    have hpq : p.2 = q.1 := congrArg Prod.fst (Option.some.inj hf)
    refine ⟨g, hg, p, hp, hpq, ?_⟩
    rw [← hpq]
    rcases centerResult_some_inv rows ccol tcol g.2 p.1 p.2 r hr with ⟨h1, _⟩ | ⟨h1, _⟩
    · exact Or.inl h1
    · exact Or.inr h1

theorem mem_rebuildRows_of (rows : List Row) (ccol : String)
    (repls : List (Nat × String)) (skips : List Nat) (j : Nat)
    (hj : j < rows.length) (hsk : j ∉ skips)
    (hrep : ∀ q ∈ repls, q.1 ≠ j) :
    rows.getD j dummyRow ∈ rebuildRows rows ccol repls skips := by
  have hje : (j, rows.getD j dummyRow) ∈ rows.enum := by
    apply List.mk_mem_enum_iff_getElem?.mpr
    rw [List.getD_eq_getElem?_getD, List.getElem?_eq_some.mpr ⟨hj, rfl⟩]
    rfl
  unfold rebuildRows
  apply List.mem_filterMap.mpr
  refine ⟨(j, rows.getD j dummyRow), hje, ?_⟩
  rw [if_neg hsk]
  have hfn : (repls.find? fun q => q.1 = j) = none :=
    List.find?_eq_none.mpr (fun q hq => by simpa using hrep q hq)
  rw [hfn]
  rfl

theorem filter_not_isEmpty_eq_all {α : Type} (l : List α) (q : α → Bool) :
    (l.filter fun a => !(q a)).isEmpty = l.all q := by
  induction l with
  | nil => rfl
  | cons a l ih =>
    by_cases h : q a
    · simpa [h] using ih
    · simp [h]

/-! ## Claim theorems -/

/-- C1: the summary written into a center row's content cell is exactly
`控制Trace<first bracketed substring>（完整）` (`管理Trace` for the 53504
family) when the found ids cover the family member set, and otherwise
`...Trace<ts> 缺少<id1、id2、...>数据` where the listed ids are exactly the
member set minus the found ids, sorted ascending as strings, joined by the
full-width separator; in particular the synthetic cluster {53552..53558}
yields （完整） and the one lacking 53553 reports exactly 53553. -/
theorem claim_C1 :
    (∀ (rows : List Row) (ccol : String) (tcol : Option String)
       (dIdx : List Nat) (i idx : Nat),
      extract_id (contentOpt rows ccol idx) = some "53552" →
      (centerResult rows ccol tcol dIdx i idx).map (·.1) = some
        (if control_target.all
              (fun m => (centerFound rows ccol tcol dIdx i idx control_target).contains m)
         then "控制Trace" ++ extract_content_timestamp (contentOpt rows ccol idx) ++ "（完整）"
         else "控制Trace" ++ extract_content_timestamp (contentOpt rows ccol idx) ++ " 缺少" ++
           String.intercalate "、"
             (control_target.filter
               (fun m => !(centerFound rows ccol tcol dIdx i idx control_target).contains m)) ++
           "数据")) ∧
    (∀ (rows : List Row) (ccol : String) (tcol : Option String)
       (dIdx : List Nat) (i idx : Nat),
      extract_id (contentOpt rows ccol idx) = some "53504" →
      (centerResult rows ccol tcol dIdx i idx).map (·.1) = some
        (if mgmt_target.all
              (fun m => (centerFound rows ccol tcol dIdx i idx mgmt_target).contains m)
         then "管理Trace" ++ extract_content_timestamp (contentOpt rows ccol idx) ++ "（完整）"
         else "管理Trace" ++ extract_content_timestamp (contentOpt rows ccol idx) ++ " 缺少" ++
           String.intercalate "、"
             (mgmt_target.filter
               (fun m => !(centerFound rows ccol tcol dIdx i idx mgmt_target).contains m)) ++
           "数据")) ∧
    (∀ (rows : List Row) (ccol : String) (tcol : Option String)
       (dIdx : List Nat) (i idx : Nat) (tgt : List String),
      tgt.Pairwise (fun a b => strLt a b = true) →
      (centerMissing rows ccol tcol dIdx i idx tgt).Pairwise
        (fun a b => strLt a b = true)) ∧
    control_target.Pairwise (fun a b => strLt a b = true) ∧
    mgmt_target.Pairwise (fun a b => strLt a b = true) ∧
    aggregate_traces c1RowsComplete hdrNoTime = [mkRow2 1 "C1" "控制Trace（完整）"] ∧
    aggregate_traces c1RowsMissing hdrNoTime = [mkRow2 1 "C1" "控制Trace 缺少53553数据"] := by
  refine ⟨?_, ?_, ?_, by decide, by decide, by decide, by decide⟩
  · intro rows ccol tcol dIdx i idx h
    unfold centerResult
    rw [if_pos h]
    simp only [Option.map_some']
    unfold traceSummary centerMissing
    rw [filter_not_isEmpty_eq_all]
    rfl
  · intro rows ccol tcol dIdx i idx h
    unfold centerResult
    rw [if_neg (by rw [h]; decide), if_pos h]
    simp only [Option.map_some']
    unfold traceSummary centerMissing
    rw [filter_not_isEmpty_eq_all]
    rfl
  · intro rows ccol tcol dIdx i idx tgt hs
    unfold centerMissing
    exact List.Pairwise.filter _ hs

/-- Witness for C1: the control conjunct applied to the complete synthetic
cluster, its hypothesis discharged by evaluation. -/
theorem claim_C1_witness :
    (centerResult c1RowsComplete "内容" none [0, 1, 2, 3, 4, 5, 6] 0 0).map (·.1) = some
      (if control_target.all
            (fun m => (centerFound c1RowsComplete "内容" none [0, 1, 2, 3, 4, 5, 6] 0 0
              control_target).contains m)
       then "控制Trace" ++ extract_content_timestamp (contentOpt c1RowsComplete "内容" 0) ++ "（完整）"
       else "控制Trace" ++ extract_content_timestamp (contentOpt c1RowsComplete "内容" 0) ++ " 缺少" ++
         String.intercalate "、"
           (control_target.filter
             (fun m => !(centerFound c1RowsComplete "内容" none [0, 1, 2, 3, 4, 5, 6] 0 0
               control_target).contains m)) ++
         "数据") :=
  claim_C1.1 c1RowsComplete "内容" none [0, 1, 2, 3, 4, 5, 6] 0 0 (by decide)

/-- C2: each merge group rebuilds to the inner-time header followed by the
concatenation of all its bracketed fault entries sorted stably ascending by
the derived key; in particular the two D240 rows with entries 697(...) and
434(...) merge into one row ordered 434 then 697. -/
theorem claim_C2 :
    (∀ (key : String × Nat) (items : List D240Item),
      mergedContent key items =
        "[" ++ key.1 ++ " " ++ toString key.2 ++ "ms] " ++
          String.join ((sortStable (fun a b => strLe a.2 b.2) (groupFaults items)).map (·.1))) ∧
    (∀ items : List D240Item,
      (sortedFaults items).Pairwise fun a b => strLe a.2 b.2 = true) ∧
    process_d240_faults c2Rows hdrFull =
      [mkRow4 1 "C1" "2025-12-08 10:18:10" "故障代码D240" c2Merged] := by
  refine ⟨fun key items => rfl, fun items => ?_, by decide⟩
  unfold sortedFaults
  exact pairwise_sortStable (fun (a b : String × String) => strLe a.2 b.2)
    (fun (a b : String × String) => strLeL_total a.2.data b.2.data)
    (fun (a b c : String × String) => strLeL_trans a.2.data b.2.data c.2.data)
    (groupFaults items)

/-- C3: `aggregate_traces` and `process_d240_faults` never grow the row
collection, and the tagging/attribute-enrichment step preserves its
length. -/
theorem claim_C3 (rows : List Row) (headers : List String) :
    (aggregate_traces rows headers).length ≤ rows.length ∧
    (process_d240_faults rows headers).length ≤ rows.length ∧
    (enrichRows rows).length = rows.length := by
  refine ⟨?_, ?_, List.length_map rows _⟩
  · unfold aggregate_traces
    split
    · exact le_refl _
    · split
      · exact le_refl _
      · exact rebuildRows_length_le _ _ _ _
  · unfold process_d240_faults
    split
    · exact le_refl _
    · split
      · exact rebuildRowsD_length_le _ _ _
      · exact le_refl _

/-- C4 (amended): `process_d240_faults` returns its input unchanged when
the content or the time column is missing, and `aggregate_traces` does so
when the content column is missing; a missing time column alone does not
short-circuit `aggregate_traces` (it degrades to the row-window fallback),
which is the one part of the claim the code contradicts. -/
theorem claim_C4 (rows : List Row) (headers : List String) :
    (findCol headers "内容" = none → aggregate_traces rows headers = rows) ∧
    ((findCol headers "内容" = none ∨ findCol headers "时间" = none) →
      process_d240_faults rows headers = rows) := by
  constructor
  · intro h
    unfold aggregate_traces
    split
    · rfl
    · rw [h]
  · intro h
    unfold process_d240_faults
    split
    · rfl
    · rcases h with h | h
      · rw [h]
      · cases hc : findCol headers "内容" with
        | none => rfl
        | some c => rw [h]

/-- C5 (amended): under the time-window strategy the candidates are exactly
the rows at group positions `k` with `i-50 ≤ k < i+50` (the upper bound
exclusive, so offset +50 is not scanned) whose parsed time lies within
`[-10, 20]` seconds of the center; the row-window fallback scans exactly
the positions with `i-20 ≤ k ≤ i+20`. -/
theorem claim_C5 (dIdx : List Nat) (i : Nat) (ct : Int)
    (rowT : Nat → Option Int) (j : Nat) :
    (j ∈ candidateIdxs dIdx i (some ct) rowT ↔
      ∃ k, dIdx[k]? = some j ∧ i ≤ k + 50 ∧ k < i + 50 ∧
        ∃ t, rowT j = some t ∧ -10 ≤ t - ct ∧ t - ct ≤ 20) ∧
    (j ∈ candidateIdxs dIdx i none rowT ↔
      ∃ k, dIdx[k]? = some j ∧ i ≤ k + 20 ∧ k ≤ i + 20) := by
  constructor
  · constructor
    · intro h
      unfold candidateIdxs at h
      rcases List.mem_filterMap.mp h with ⟨p, hp, hf⟩
      by_cases hcnd : i - 50 ≤ p.1 ∧ p.1 < i + 50
      · rw [if_pos hcnd] at hf
        cases hrt : rowT p.2 with
        | none => rw [hrt] at hf; simp at hf
        | some t =>
          rw [hrt] at hf
          simp only [Option.ite_none_right_eq_some, Option.some.injEq] at hf
          obtain ⟨hint, hpj⟩ := hf
          subst hpj
          obtain ⟨h50, hlt⟩ := hcnd
          exact ⟨p.1, List.mk_mem_enum_iff_getElem?.mp hp, by omega, hlt,
            t, hrt, hint.1, hint.2⟩
      · rw [if_neg hcnd] at hf
        simp at hf
    · rintro ⟨k, hk, h1, h2, t, ht, h3, h4⟩
      unfold candidateIdxs
      apply List.mem_filterMap.mpr
      refine ⟨(k, j), List.mk_mem_enum_iff_getElem?.mpr hk, ?_⟩
      show (if i - 50 ≤ k ∧ k < i + 50 then
          match rowT j with
          | some t => if -10 ≤ t - ct ∧ t - ct ≤ 20 then some j else none
          | none => none
        else none) = some j
      rw [if_pos ⟨by omega, h2⟩, ht]
      simp [h3, h4]
  · constructor
    · intro h
      unfold candidateIdxs at h
      rcases List.mem_filterMap.mp h with ⟨p, hp, hf⟩
      by_cases hcnd : i - 20 ≤ p.1 ∧ p.1 < i + 21
      · rw [if_pos hcnd] at hf
        have hpj : p.2 = j := Option.some.inj hf
        subst hpj
        obtain ⟨h20, hlt⟩ := hcnd
        exact ⟨p.1, List.mk_mem_enum_iff_getElem?.mp hp, by omega, by omega⟩
      · rw [if_neg hcnd] at hf
        simp at hf
    · rintro ⟨k, hk, h1, h2⟩
      unfold candidateIdxs
      apply List.mem_filterMap.mpr
      refine ⟨(k, j), List.mk_mem_enum_iff_getElem?.mpr hk, ?_⟩
      show (if i - 20 ≤ k ∧ k < i + 21 then some j else none) = some j
      rw [if_pos ⟨by omega, by omega⟩]

/-- Counterexample for C5: with the center at group position 0 and 51 rows
all carrying the center's timestamp, the row at offset +50 satisfies the
claim's inclusive ±50 window but is not a candidate of the code, whose
upper bound is exclusive. -/
theorem claim_C5_counterexample :
    candidateIdxs (List.range 51) 0 (some 0) (fun _ => some 0) ≠
      claimC5Candidates (List.range 51) 0 (some 0) (fun _ => some 0) := by
  decide

/-- Counterexample for C4: headers with a content but no time column, on
which `aggregate_traces` still aggregates instead of returning its input. -/
theorem claim_C4_counterexample :
    findCol hdrNoTime "时间" = none ∧ aggregate_traces c4Rows hdrNoTime ≠ c4Rows := by
  constructor
  · rfl
  · decide

/-- Witness for C4: headers with neither column leave both stages as the
identity. -/
theorem claim_C4_witness :
    aggregate_traces c4Rows ["甲", "乙"] = c4Rows ∧
    process_d240_faults c4Rows ["甲", "乙"] = c4Rows :=
  ⟨(claim_C4 c4Rows ["甲", "乙"]).1 (by decide),
   (claim_C4 c4Rows ["甲", "乙"]).2 (Or.inl (by decide))⟩

/-- C6 (amended): a second run of the Trace Cluster Aggregator leaves its
own output unchanged provided no row of that output still carries content
matching the `Trace[:：]\s*(\d+)` pattern with a center id — which holds
for summaries whose bracketed timestamp embeds no trace marker, but not
unconditionally. -/
theorem claim_C6 (rows : List Row) (headers : List String)
    (h : ∀ ccol, findCol headers "内容" = some ccol →
      ∀ idx, idx < (aggregate_traces rows headers).length →
        extract_id (contentOpt (aggregate_traces rows headers) ccol idx) ≠ some "53552" ∧
        extract_id (contentOpt (aggregate_traces rows headers) ccol idx) ≠ some "53504") :
    aggregate_traces (aggregate_traces rows headers) headers =
      aggregate_traces rows headers :=
  aggregate_traces_no_center (aggregate_traces rows headers) headers h

/-- Counterexample for C6: a center whose first bracketed substring is
itself a trace marker produces a summary that still matches the extraction
pattern, and the second run rewrites it. -/
theorem claim_C6_counterexample :
    aggregate_traces (aggregate_traces c6Rows hdrNoTime) hdrNoTime ≠
      aggregate_traces c6Rows hdrNoTime := by
  decide

/-- Witness for C6: on the ordinary complete cluster the aggregated output
extracts no ids, so the second run is the identity. -/
theorem claim_C6_witness :
    aggregate_traces (aggregate_traces c1RowsComplete hdrNoTime) hdrNoTime =
      aggregate_traces c1RowsComplete hdrNoTime :=
  claim_C6 c1RowsComplete hdrNoTime (fun ccol hc idx hidx => by
    rw [show findCol hdrNoTime "内容" = some "内容" from rfl] at hc
    injection hc with hc2
    subst hc2
    have hl : (aggregate_traces c1RowsComplete hdrNoTime).length = 1 := by decide
    rw [hl] at hidx
    have h0 : idx = 0 := by omega
    subst h0
    exact ⟨by decide, by decide⟩)

/-- C7: with a parseable embedded content timestamp and a parseable row
time, the delayed-upload tag is attached iff the difference strictly
exceeds the configured threshold in minutes (exact arithmetic: seconds
greater than 60·threshold), carrying the floored whole-minute count; at or
below the threshold no delay tag of any minute count is attached. -/
theorem claim_C7 (row : Row) (cs : String) (rdt cdt : DT)
    (hts : scanTsMatch (getVal2 row "内容" "Content").data = some cs)
    (hrt : parseTimestamp (getVal2 row "时间" "Time") = some rdt)
    (hct : parseTimestamp cs = some cdt) :
    (delayTag ((dtSecs rdt - dtSecs cdt).toNat / 60) ∈ get_tags row ↔
      60 * (threshold_minutes : Int) < dtSecs rdt - dtSecs cdt) ∧
    (dtSecs rdt - dtSecs cdt ≤ 60 * (threshold_minutes : Int) →
      ∀ n : Nat, delayTag n ∉ get_tags row) := by
  have hcne : getVal2 row "内容" "Content" ≠ "" := by
    intro he
    rw [he, show scanTsMatch ("" : String).data = none from rfl] at hts
    exact Option.noConfusion hts
  have htne : getVal2 row "时间" "Time" ≠ "" := by
    intro he
    rw [he, show parseTimestamp "" = none from rfl] at hrt
    exact Option.noConfusion hrt
  have hdm : delayMinutes (getVal2 row "内容" "Content") (getVal2 row "时间" "Time") =
      (if 60 * (threshold_minutes : Int) < dtSecs rdt - dtSecs cdt
       then some ((dtSecs rdt - dtSecs cdt).toNat / 60) else none) := by
    unfold delayMinutes
    rw [hts]
    simp only [if_neg htne, hrt, hct]
  have hsing : ∀ (n : Nat) (b : Prop) [Decidable b] (s : String), delayTag n ≠ s →
      delayTag n ∉ (if b then [s] else ([] : List String)) := by
    intro n b _ s hne
    by_cases hb : b <;> simp [hb, hne]
  have hgt : get_tags row =
      (if isNonCritical (getVal2 row "内容" "Content") then [ncTag] else []) ++
      delayTagList (getVal2 row "内容" "Content") (getVal2 row "时间" "Time") ++
      (if isHumanOp row (getVal2 row "内容" "Content") then [humanTag] else []) ++
      (if pyContains (getVal2 row "内容" "Content") "工单" then [woTag] else []) := by
    unfold get_tags
    rw [if_neg hcne]
  have hnotin : ∀ n : Nat, delayTag n ∈ get_tags row →
      delayTag n ∈ delayTagList (getVal2 row "内容" "Content") (getVal2 row "时间" "Time") := by
    intro n hmem
    rw [hgt] at hmem
    rcases List.mem_append.mp hmem with h1 | h4
    · rcases List.mem_append.mp h1 with h2 | h3
      · rcases List.mem_append.mp h2 with ha | hb
        · exact absurd ha (hsing n _ ncTag (delayTag_ne_ncTag n))
        · exact hb
      · exact absurd h3 (hsing n _ humanTag (delayTag_ne_humanTag n))
    · exact absurd h4 (hsing n _ woTag (delayTag_ne_woTag n))
  constructor
  · constructor
    · intro hmem
      have hd := hnotin _ hmem
      unfold delayTagList at hd
      rw [hdm] at hd
      by_cases hcond : 60 * (threshold_minutes : Int) < dtSecs rdt - dtSecs cdt
      · exact hcond
      · rw [if_neg hcond] at hd
        simp at hd
    · intro hcond
      rw [hgt]
      refine List.mem_append.mpr (Or.inl (List.mem_append.mpr (Or.inl
        (List.mem_append.mpr (Or.inr ?_)))))
      unfold delayTagList
      rw [hdm, if_pos hcond]
      simp
  · intro hcond n hmem
    have hd := hnotin _ hmem
    unfold delayTagList at hd
    rw [hdm, if_neg (by omega)] at hd
    simp at hd

/-- Witness for C7: the row exactly three minutes late is not tagged, the
row one second beyond is tagged with the floored count of 3 minutes. -/
theorem claim_C7_witness :
    delayTag 3 ∉ get_tags c7RowExact ∧ delayTag 3 ∈ get_tags c7RowLate :=
  ⟨(claim_C7 c7RowExact "2025-12-08 10:00:00" ⟨2025, 12, 8, 10, 3, 0⟩
      ⟨2025, 12, 8, 10, 0, 0⟩ (by decide) (by decide) (by decide)).2
      (by decide) 3,
   (claim_C7 c7RowLate "2025-12-08 10:00:00" ⟨2025, 12, 8, 10, 3, 1⟩
      ⟨2025, 12, 8, 10, 0, 0⟩ (by decide) (by decide) (by decide)).1.mpr
      (by decide)⟩

/-- C8: a row matching a configured non-critical keyword never contributes
a rendered line (the lines are exactly the rendered survivors) and, with
logs requested, appears in the ignored list as the record carrying its id,
time, content and the exact reason string. -/
theorem claim_C8 (rows : List Row) (r : Row)
    (hr : r ∈ rows)
    (hnc : isNonCritical (getVal2 r "内容" "Content") = true) :
    mkIgnored r ∈ (processTimeline rows true).ignored ∧
    keepRow r = false ∧
    ∀ lg : Bool, (processTimeline rows lg).lines = (rows.filter keepRow).map renderLine := by
  have hne : getVal2 r "内容" "Content" ≠ "" := by
    intro he
    rw [he] at hnc
    exact absurd hnc (by decide)
  refine ⟨?_, by simp [keepRow, hnc], fun lg => processTimeline_lines rows lg⟩
  rw [processTimeline_ignored]
  exact List.mem_map_of_mem mkIgnored
    (List.mem_filter.mpr ⟨hr, by simp [ncRow, hnc, hne]⟩)

/-- Witness for C8: the keyword-matching fixture row is logged as ignored
and filtered out of the rendered lines. -/
theorem claim_C8_witness :
    mkIgnored c8RowNc ∈ (processTimeline c8Rows true).ignored ∧
    keepRow c8RowNc = false ∧
    ∀ lg : Bool, (processTimeline c8Rows lg).lines = (c8Rows.filter keepRow).map renderLine :=
  claim_C8 c8Rows c8RowNc (by decide) (by decide)

/-- C9: two distinct centers of the same family in one device group, each
inside the other's candidate window, each add the other to the skip set;
the reconstruction consults the skip set before the replacement map, so
both rows are dropped and neither summary appears in the output. -/
theorem claim_C9 (rows : List Row) (headers : List String) (ccol : String)
    (g : String × List Nat) (pa pb a b : Nat) (cid : String)
    (hc : findCol headers "内容" = some ccol)
    (hg : g ∈ deviceGroups rows (deviceCol headers))
    (ha : g.2[pa]? = some a) (hb : g.2[pb]? = some b) (hab : a ≠ b)
    (hia : extract_id (contentOpt rows ccol a) = some cid)
    (hib : extract_id (contentOpt rows ccol b) = some cid)
    (hfam : cid = "53552" ∨ cid = "53504")
    (hwa : b ∈ centerCandidates rows (findCol headers "时间") g.2 pa a)
    (hwb : a ∈ centerCandidates rows (findCol headers "时间") g.2 pb b) :
    a ∈ aggregateSkips rows ccol (findCol headers "时间") (deviceCol headers) ∧
    b ∈ aggregateSkips rows ccol (findCol headers "时间") (deviceCol headers) ∧
    aggregate_traces rows headers =
      rebuildRows rows ccol
        (aggregateRepls rows ccol (findCol headers "时间") (deviceCol headers))
        (aggregateSkips rows ccol (findCol headers "时间") (deviceCol headers)) := by
  have hmain : ∀ (pp x y : Nat), g.2[pp]? = some x →
      extract_id (contentOpt rows ccol x) = some cid →
      extract_id (contentOpt rows ccol y) = some cid →
      y ∈ centerCandidates rows (findCol headers "时间") g.2 pp x →
      y ≠ x →
      y ∈ aggregateSkips rows ccol (findCol headers "时间") (deviceCol headers) := by
    intro pp x y hx hidx hidy hcand hne
    rcases hfam with hcid | hcid
    · subst hcid
      have hcl : y ∈ centerCluster rows ccol (findCol headers "时间") g.2 pp x
          control_target :=
        mem_centerCluster_of _ _ _ _ _ _ _ y "53552" hcand hidy (by decide)
      have hres : centerResult rows ccol (findCol headers "时间") g.2 pp x =
          some (traceSummary "控制"
              (extract_content_timestamp (contentOpt rows ccol x))
              (centerMissing rows ccol (findCol headers "时间") g.2 pp x control_target),
            centerCluster rows ccol (findCol headers "时间") g.2 pp x control_target) := by
        unfold centerResult
        rw [if_pos hidx]
      exact mem_aggregateSkips_of rows ccol _ _ g y hg
        (mem_groupSkips_of rows ccol _ g.2 (pp, x) _ y
          (List.mk_mem_enum_iff_getElem?.mpr hx) hres hcl hne)
    · subst hcid
      have hcl : y ∈ centerCluster rows ccol (findCol headers "时间") g.2 pp x
          mgmt_target :=
        mem_centerCluster_of _ _ _ _ _ _ _ y "53504" hcand hidy (by decide)
      have hres : centerResult rows ccol (findCol headers "时间") g.2 pp x =
          some (traceSummary "管理"
              (extract_content_timestamp (contentOpt rows ccol x))
              (centerMissing rows ccol (findCol headers "时间") g.2 pp x mgmt_target),
            centerCluster rows ccol (findCol headers "时间") g.2 pp x mgmt_target) := by
        unfold centerResult
        rw [if_neg (by rw [hidx]; decide), if_pos hidx]
      exact mem_aggregateSkips_of rows ccol _ _ g y hg
        (mem_groupSkips_of rows ccol _ g.2 (pp, x) _ y
          (List.mk_mem_enum_iff_getElem?.mpr hx) hres hcl hne)
  have hre : rows ≠ [] := by
    intro h0
    subst h0
    simp [deviceGroups] at hg
  refine ⟨hmain pb b a hb hib hia hwb hab, hmain pa a b ha hia hib hwa (Ne.symm hab), ?_⟩
  unfold aggregate_traces
  rw [if_neg (by simp [List.isEmpty_iff, hre]), hc]

/-- Witness for C9: two adjacent 53552 centers of one device vanish from
the output together. -/
theorem claim_C9_witness :
    0 ∈ aggregateSkips c9Rows "内容" (findCol hdrNoTime "时间") (deviceCol hdrNoTime) ∧
    1 ∈ aggregateSkips c9Rows "内容" (findCol hdrNoTime "时间") (deviceCol hdrNoTime) ∧
    aggregate_traces c9Rows hdrNoTime =
      rebuildRows c9Rows "内容"
        (aggregateRepls c9Rows "内容" (findCol hdrNoTime "时间") (deviceCol hdrNoTime))
        (aggregateSkips c9Rows "内容" (findCol hdrNoTime "时间") (deviceCol hdrNoTime)) :=
  claim_C9 c9Rows hdrNoTime "内容" ("C1", [0, 1]) 0 1 0 1 "53552"
    (by decide) (by decide) (by decide) (by decide) (by decide)
    (by decide) (by decide) (Or.inl rfl) (by decide) (by decide)

/-- C10: under the time-window strategy a family-member row whose own time
value does not parse is never a candidate of the center, so (when every
center of its group uses the time strategy and no candidate supplies its
id) it is neither found nor removed: its id lands in the center's missing
list and its row survives unchanged in the output. -/
theorem claim_C10 (rows : List Row) (headers : List String) (ccol : String)
    (g : String × List Nat) (pa a j : Nat) (ct : Int) (mid : String)
    (hc : findCol headers "内容" = some ccol)
    (hg : g ∈ deviceGroups rows (deviceCol headers))
    (ha : g.2[pa]? = some a)
    (hcen : extract_id (contentOpt rows ccol a) = some "53552")
    (hat : rowTimeS rows (findCol headers "时间") a = some ct)
    (hjt : rowTimeS rows (findCol headers "时间") j = none)
    (hcens : ∀ g2 ∈ deviceGroups rows (deviceCol headers), ∀ p ∈ g2.2.enum,
      (extract_id (contentOpt rows ccol p.2) = some "53552" ∨
       extract_id (contentOpt rows ccol p.2) = some "53504") →
      rowTimeS rows (findCol headers "时间") p.2 ≠ none)
    (hj : j < rows.length)
    (hmid : extract_id (contentOpt rows ccol j) = some mid)
    (hmem : mid ∈ control_target)
    (hnone : ∀ c ∈ centerCandidates rows (findCol headers "时间") g.2 pa a,
      extract_id (contentOpt rows ccol c) ≠ some mid) :
    j ∉ centerCandidates rows (findCol headers "时间") g.2 pa a ∧
    mid ∈ centerMissing rows ccol (findCol headers "时间") g.2 pa a control_target ∧
    rows.getD j dummyRow ∈ aggregate_traces rows headers := by
  have h1 : j ∉ centerCandidates rows (findCol headers "时间") g.2 pa a := by
    intro hmem2
    unfold centerCandidates at hmem2
    rw [hat] at hmem2
    exact candidate_time_some g.2 pa ct _ j hmem2 hjt
  have h2 : mid ∉ centerFound rows ccol (findCol headers "时间") g.2 pa a
      control_target := by
    intro hf
    rcases centerFound_inv _ _ _ _ _ _ _ _ hf with ⟨c, hcand, hid⟩
    exact hnone c hcand hid
  have h2m : mid ∈ centerMissing rows ccol (findCol headers "时间") g.2 pa a
      control_target := by
    unfold centerMissing
    refine List.mem_filter.mpr ⟨hmem, ?_⟩
    simpa using h2
  have hsk : j ∉ aggregateSkips rows ccol (findCol headers "时间") (deviceCol headers) := by
    intro hmem2
    rcases aggregateSkips_inv _ _ _ _ _ hmem2 with ⟨g2, hg2, p, hp, r, hres, hbr, _⟩
    rcases centerResult_some_inv _ _ _ _ _ _ _ hres with ⟨hid0, hr2⟩ | ⟨hid0, hr2⟩
    · rw [hr2] at hbr
      have hcand := centerCluster_subset_candidates _ _ _ _ _ _ _ _ hbr
      have hcne := hcens g2 hg2 p hp (Or.inl hid0)
      cases hct2 : rowTimeS rows (findCol headers "时间") p.2 with
      | none => exact hcne hct2
      | some ct2 =>
        unfold centerCandidates at hcand
        rw [hct2] at hcand
        exact candidate_time_some g2.2 p.1 ct2 _ j hcand hjt
    · rw [hr2] at hbr
      have hcand := centerCluster_subset_candidates _ _ _ _ _ _ _ _ hbr
      have hcne := hcens g2 hg2 p hp (Or.inr hid0)
      cases hct2 : rowTimeS rows (findCol headers "时间") p.2 with
      | none => exact hcne hct2
      | some ct2 =>
        unfold centerCandidates at hcand
        rw [hct2] at hcand
        exact candidate_time_some g2.2 p.1 ct2 _ j hcand hjt
  have hrep : ∀ q ∈ aggregateRepls rows ccol (findCol headers "时间")
      (deviceCol headers), q.1 ≠ j := by
    intro q hq hqj
    rcases aggregateRepls_inv _ _ _ _ _ hq with ⟨g2, hg2, p, hp, hpq, hcid⟩
    have hcen2 := hcens g2 hg2 p hp (by rw [hpq]; exact hcid)
    exact hcen2 (by rw [hpq, hqj]; exact hjt)
  refine ⟨h1, h2m, ?_⟩
  have hre : rows ≠ [] := by
    intro h0
    rw [h0] at hj
    simp at hj
  unfold aggregate_traces
  rw [if_neg (by simp [List.isEmpty_iff, hre]), hc]
  exact mem_rebuildRows_of rows ccol _ _ j hj hsk hrep

/-- Witness for C10: the companion with the unparseable time survives next
to a summary that reports it missing. -/
theorem claim_C10_witness :
    1 ∉ centerCandidates c10Rows (findCol hdrFull "时间") [0, 1] 0 0 ∧
    "53553" ∈ centerMissing c10Rows "信息内容" (findCol hdrFull "时间") [0, 1] 0 0
      control_target ∧
    c10Rows.getD 1 dummyRow ∈ aggregate_traces c10Rows hdrFull :=
  claim_C10 c10Rows hdrFull "信息内容" ("C1", [0, 1]) 0 0 1
    (dtSecs ⟨2025, 12, 8, 10, 0, 0⟩) "53553"
    (by decide) (by decide) (by decide) (by decide) (by decide) (by decide)
    (by decide) (by decide) (by decide) (by decide) (by decide)

end TimelineAI
